import Mathlib

/-!
# `types.IntersectionType` (Objects/intersectionobject.c)

A shallow embedding of the intersection type object: the operand classifier,
the normalizer (`flatten_args`, `dedup_and_flatten_args`, `make_intersection`),
the binary combinator `_Py_intersection_type_and`, the membership checks,
equality and hash, and the renderer.

Conventions of the embedding.

* A `PyObject *` is a value of `PyObj`; every object carries its address, and the
  C pointer comparison `a == b` is `PyObj.same a b` (same kind of object at the
  same address).  The singletons `Py_None`, `Py_NotImplemented`, `Py_True`,
  `Py_False` and the type object `_PyNone_Type` are constructors of their own.
* A tuple is a `List PyObj`.
* A function returning `PyObject *` returns `Except PyErr PyObj`; `NULL` with an
  exception set is `Except.error`.
* C `int` results of host primitives (`PyObject_IsInstance`, rich comparison)
  are `Int`, with the C conventions: negative is failure, zero is false.
* Host primitives that are not defined in this file of the repository are
  fields of `Host`.
* Memory exhaustion (`PyTuple_New`, `PyObject_GC_New`, `PyTuple_Pack` returning
  `NULL`) is outside the model: allocation succeeds, and the address handed out
  by `PyObject_GC_New` is an argument of `make_intersection`.
-/

namespace Intersection

/-- A host object, as far as this file looks at it. -/
inductive PyObj where
  /-- The singleton `Py_None`. -/
  | Py_None : PyObj
  /-- The singleton `Py_NotImplemented`. -/
  | Py_NotImplemented : PyObj
  /-- The singleton `Py_True`. -/
  | Py_True : PyObj
  /-- The singleton `Py_False`. -/
  | Py_False : PyObj
  /-- The type object `_PyNone_Type` (the class of `Py_None`). -/
  | PyNone_Type : PyObj
  /-- Any other object for which `PyType_Check` holds: a class. -/
  | type (addr : Nat) : PyObj
  /-- An object for which `_PyGenericAlias_Check` holds. -/
  | GenericAlias (addr : Nat) : PyObj
  /-- An `intersectionobject`: `_PyIntersection_Check` holds; fields `args` and
  `parameters` (`none` is the C `NULL`). -/
  | Intersection (addr : Nat) (args : List PyObj) (parameters : Option (List PyObj)) : PyObj
  /-- Any other object. -/
  | object (addr : Nat) : PyObj

/-- Where an object lives: the kind of storage and the address in it. -/
def PyObj.ident : PyObj → Nat × Nat
  | .Py_None => (0, 0)
  | .Py_NotImplemented => (0, 1)
  | .Py_True => (0, 2)
  | .Py_False => (0, 3)
  | .PyNone_Type => (0, 4)
  | .type a => (1, a)
  | .GenericAlias a => (2, a)
  | .Intersection a _ _ => (3, a)
  | .object a => (4, a)

/-- The C pointer comparison `a == b`. -/
def PyObj.same (a b : PyObj) : Bool := a.ident == b.ident

/-- The exception left pending when a function returns `NULL`. -/
inductive PyErr where
  /-- `PyErr_SetString(PyExc_TypeError, msg)` executed by this file. -/
  | TypeError (msg : String) : PyErr
  /-- An exception raised inside a host primitive and passed on unchanged. -/
  | Raised : PyErr
  deriving DecidableEq

/-- The host primitives this file calls. -/
structure Host where
  /-- The objects' own `==` (`tp_richcompare` with `Py_EQ`, result taken as a
  truth value): negative when it raised, zero when unequal. -/
  richcompare_eq : PyObj → PyObj → Int
  /-- `PyObject_IsInstance(inst, cls)`. -/
  PyObject_IsInstance : PyObj → PyObj → Int
  /-- `PyObject_IsSubclass(derived, cls)`. -/
  PyObject_IsSubclass : PyObj → PyObj → Int
  /-- `PyObject_Hash(op)`: `-1` when the object cannot be hashed. -/
  PyObject_Hash : PyObj → Int

/-- `PyType_Check(op)`. -/
def PyType_Check : PyObj → Bool
  | .PyNone_Type => true
  | .type _ => true
  | _ => false

/-- `_PyGenericAlias_Check(op)`. -/
def _PyGenericAlias_Check : PyObj → Bool
  | .GenericAlias _ => true
  | _ => false

/-- `_PyIntersection_Check(op)`. -/
def _PyIntersection_Check : PyObj → Bool
  | .Intersection _ _ _ => true
  | _ => false

/-- Modelled from the spec: the host primitive `PyObject_RichCompareBool(v, w, Py_EQ)`
is not defined in this file of the repository.  Identical objects are duplicates
of each other whatever their kind (the dedupe rule of the spec; the host
documents that identity implies equality here), otherwise the answer is the
objects' own structural comparison, which may fail. -/
def PyObject_RichCompareBool (h : Host) (v w : PyObj) : Int :=
  if v.same w then 1 else h.richcompare_eq v w

/-- `flatten_args`, first loop: the number of arguments once flattened. -/
def flatten_args_total : List PyObj → Nat
  | [] => 0
  | .Intersection _ nested_args _ :: rest => nested_args.length + flatten_args_total rest
  | _ :: rest => 1 + flatten_args_total rest

/-- `flatten_args`, second loop: the flattened tuple. -/
def flatten_args : List PyObj → List PyObj
  | [] => []
  | .Intersection _ nested_args _ :: rest => nested_args ++ flatten_args rest
  | arg :: rest =>
    (if arg.same .Py_None then PyObj.PyNone_Type else arg) :: flatten_args rest

/-- The value `dedup_and_flatten_args` assigns to `is_duplicate` when it compares
the candidate `i_element` with the accepted `j_element`. -/
def is_duplicate (h : Host) (i_element j_element : PyObj) : Int :=
  let is_ga := _PyGenericAlias_Check i_element && _PyGenericAlias_Check j_element
  if is_ga then PyObject_RichCompareBool h i_element j_element
  else if i_element.same j_element then 1 else 0

/-- `dedup_and_flatten_args`, inner loop over the accepted `new_args`: the value
of `is_duplicate` when the loop is left (by exhaustion, by `break`, or by the
failing comparison). -/
def dedup_scan (h : Host) (i_element : PyObj) : List PyObj → Int
  | [] => 0
  | j_element :: rest =>
    let d := is_duplicate h i_element j_element
    if d < 0 then d
    else if d ≠ 0 then d
    else dedup_scan h i_element rest

/-- `dedup_and_flatten_args`, outer loop: `args` is what is left of the flattened
tuple, `new_args` the elements accepted so far (the first `added_items` slots). -/
def dedup_loop (h : Host) : List PyObj → List PyObj → Except PyErr (List PyObj)
  | [], new_args => .ok new_args
  | i_element :: rest, new_args =>
    let is_duplicate := dedup_scan h i_element new_args
    if is_duplicate < 0 then .error .Raised
    else if is_duplicate = 0 then dedup_loop h rest (new_args ++ [i_element])
    else dedup_loop h rest new_args

/-- `dedup_and_flatten_args`. -/
def dedup_and_flatten_args (h : Host) (args : List PyObj) : Except PyErr (List PyObj) :=
  dedup_loop h (flatten_args args) []

/-- `make_intersection`; `addr` is the address of the object `PyObject_GC_New`
returns. -/
def make_intersection (h : Host) (addr : Nat) (args : List PyObj) : Except PyErr PyObj :=
  match dedup_and_flatten_args h args with
  | .error e => .error e
  | .ok [result1] => .ok result1
  | .ok args => .ok (.Intersection addr args none)

/-- `is_intersectionable`. -/
def is_intersectionable (obj : PyObj) : Bool :=
  obj.same .Py_None || PyType_Check obj || _PyGenericAlias_Check obj ||
    _PyIntersection_Check obj

/-- `_Py_intersection_type_and`. -/
def _Py_intersection_type_and (h : Host) (addr : Nat) (self other : PyObj) :
    Except PyErr PyObj :=
  if !is_intersectionable self || !is_intersectionable other then
    .ok .Py_NotImplemented
  else
    make_intersection h addr [self, other]

/-- `((intersectionobject *)self)->args`; read on intersection objects only. -/
def PyObj.args : PyObj → List PyObj
  | .Intersection _ args _ => args
  | _ => []

/-- Data model: the operands of an intersection object are classes (the none
marker `_PyNone_Type` is one) and generic aliases.  Holds of every object that
is not an intersection object. -/
def PyObj.operands_classified (x : PyObj) : Bool :=
  x.args.all fun y => PyType_Check y || _PyGenericAlias_Check y

/-- `is_generic_alias_in_args`: `0` when some argument is a generic alias, `1`
when none is. -/
def is_generic_alias_in_args : List PyObj → Int
  | [] => 1
  | arg :: rest =>
    if _PyGenericAlias_Check arg then 0 else is_generic_alias_in_args rest

/-- `intersection_instancecheck`, the loop over `alias->args`. -/
def instancecheck_loop (h : Host) (inst : PyObj) : List PyObj → Except PyErr PyObj
  | [] => .ok .Py_False
  | arg :: rest =>
    if PyType_Check arg then
      let res := h.PyObject_IsInstance inst arg
      if res < 0 then .error .Raised
      else if res ≠ 0 then .ok .Py_True
      else instancecheck_loop h inst rest
    else instancecheck_loop h inst rest

/-- `intersection_instancecheck`. -/
def intersection_instancecheck (h : Host) (self inst : PyObj) : Except PyErr PyObj :=
  if is_generic_alias_in_args self.args = 0 then
    .error (.TypeError "isinstance() argument 2 cannot contain a parameterized generic")
  else instancecheck_loop h inst self.args

/-- `intersection_subclasscheck`, the loop over `alias->args`. -/
def subclasscheck_loop (h : Host) (inst : PyObj) : List PyObj → Except PyErr PyObj
  | [] => .ok .Py_True
  | arg :: rest =>
    if PyType_Check arg then
      let res := h.PyObject_IsSubclass inst arg
      if res < 0 then .error .Raised
      else if res = 0 then .ok .Py_False
      else subclasscheck_loop h inst rest
    else subclasscheck_loop h inst rest

/-- `intersection_subclasscheck`. -/
def intersection_subclasscheck (h : Host) (self inst : PyObj) : Except PyErr PyObj :=
  if !PyType_Check inst then
    .error (.TypeError "issubclass() arg 1 must be a class")
  else if is_generic_alias_in_args self.args = 0 then
    .error (.TypeError "issubclass() argument 2 cannot contain a parameterized generic")
  else subclasscheck_loop h inst self.args

/-- The rich comparison operator `Py_EQ`. -/
def Py_EQ : Int := 2

/-- The rich comparison operator `Py_NE`. -/
def Py_NE : Int := 3

/-- Modelled from the spec: the host's set lookup (behind `PySet_New` and the
comparison of two sets) is not defined in this file of the repository.  The
unordered-set view of the spec holds its entries by hash and equality: `key` is
found among `entries` when an entry has its hash and is equal to it under
`PyObject_RichCompareBool`.  Result `1` found, `0` absent, `-1` when a
comparison failed.  The entries are visited in the order they were added; the
host's probing order is not modelled, and matters only when a comparison
fails. -/
def set_contains (h : Host) (key : PyObj) : List PyObj → Int
  | [] => 0
  | entry :: rest =>
    if h.PyObject_Hash entry = h.PyObject_Hash key then
      let cmp := PyObject_RichCompareBool h entry key
      if cmp < 0 then -1
      else if cmp > 0 then 1
      else set_contains h key rest
    else set_contains h key rest

/-- Modelled from the spec: the host's set construction, not defined in this
file of the repository; adds the elements left in `keys` to the entries `so`.
Fails on an element that cannot be hashed and when a comparison fails; an
element already found among the entries is not added again. -/
def set_update (h : Host) : List PyObj → List PyObj → Except PyErr (List PyObj)
  | [], so => .ok so
  | key :: rest, so =>
    if h.PyObject_Hash key = -1 then .error .Raised
    else
      let found := set_contains h key so
      if found < 0 then .error .Raised
      else if found = 0 then set_update h rest (so ++ [key])
      else set_update h rest so

/-- Modelled from the spec: the host primitive `PySet_New(iterable)`, not defined
in this file of the repository: the unordered-set view of a tuple, as the list
of its entries. -/
def PySet_New (h : Host) (iterable : List PyObj) : Except PyErr (List PyObj) :=
  set_update h iterable []

/-- Modelled from the spec: whether every entry of the set `so` is found in the
set `other` (host primitive, not defined in this file of the repository). -/
def set_issubset (h : Host) (other : List PyObj) : List PyObj → Except PyErr PyObj
  | [] => .ok .Py_True
  | entry :: rest =>
    let found := set_contains h entry other
    if found < 0 then .error .Raised
    else if found = 0 then .ok .Py_False
    else set_issubset h other rest

/-- Modelled from the spec: the host primitive `PyObject_RichCompare(v, w, op)` on
two sets, not defined in this file of the repository.  For `Py_EQ`: the sets
have the same number of entries and every entry of `v` is found in `w`; for
`Py_NE`: the negation of that.  This file passes no other operator. -/
def set_richcompare (h : Host) (v w : List PyObj) (op : Int) : Except PyErr PyObj :=
  if op = Py_EQ then
    if v.length ≠ w.length then .ok .Py_False else set_issubset h w v
  else if op = Py_NE then
    match (if v.length ≠ w.length then .ok .Py_False else set_issubset h w v) with
    | .error e => .error e
    | .ok r => .ok (if r.same .Py_True then .Py_False else .Py_True)
  else .ok .Py_NotImplemented

/-- `intersection_richcompare`. -/
def intersection_richcompare (h : Host) (a b : PyObj) (op : Int) : Except PyErr PyObj :=
  if !_PyIntersection_Check b || (op != Py_EQ && op != Py_NE) then
    .ok .Py_NotImplemented
  else
    match PySet_New h a.args with
    | .error e => .error e
    | .ok a_set =>
      match PySet_New h b.args with
      | .error e => .error e
      | .ok b_set => set_richcompare h a_set b_set op

/-- The operand `flatten_args` stores for a top-level argument that is not an
intersection object: `None` is replaced by the type object `_PyNone_Type`. -/
def stored_operand (arg : PyObj) : PyObj :=
  if arg.same .Py_None then .PyNone_Type else arg

/-- On the objects of `U`, the host's `==` behaves as an equality that sets can
rely on: every object can be hashed, no comparison fails, the comparison is
symmetric and transitive, and objects that compare equal have the same hash. -/
structure SetFriendly (h : Host) (U : List PyObj) : Prop where
  hashable : ∀ x ∈ U, h.PyObject_Hash x ≠ -1
  no_failure : ∀ x ∈ U, ∀ y ∈ U, 0 ≤ PyObject_RichCompareBool h x y
  symmetric : ∀ x ∈ U, ∀ y ∈ U, PyObject_RichCompareBool h x y ≠ 0 →
    PyObject_RichCompareBool h y x ≠ 0
  transitive : ∀ x ∈ U, ∀ y ∈ U, ∀ z ∈ U, PyObject_RichCompareBool h x y ≠ 0 →
    PyObject_RichCompareBool h y z ≠ 0 → PyObject_RichCompareBool h x z ≠ 0
  same_hash : ∀ x ∈ U, ∀ y ∈ U, PyObject_RichCompareBool h x y ≠ 0 →
    h.PyObject_Hash x = h.PyObject_Hash y

/-- Invariant I1 of one object: an intersection object has no intersection
object among its operands.  Holds of every object that is not an intersection
object. -/
def PyObj.I1 (x : PyObj) : Bool :=
  x.args.all fun y => !_PyIntersection_Check y

/-- What a construction hands back, up to the address of a freshly built object:
the absorbed operand itself, or the operand sequence of the intersection
object. -/
def PyObj.result_view : PyObj → PyObj ⊕ List PyObj
  | .Intersection _ args _ => .inr args
  | x => .inl x

/-- A host in which distinct objects are never equal, and no object is
an instance or a subclass of anything. -/
def plain_host : Host where
  richcompare_eq := fun _ _ => 0
  PyObject_IsInstance := fun _ _ => 0
  PyObject_IsSubclass := fun _ _ => 0
  PyObject_Hash := fun x => x.ident.2

/-- A host in which distinct objects are never equal, and every object
is an instance and a subclass of every class. -/
def generous_host : Host where
  richcompare_eq := fun _ _ => 0
  PyObject_IsInstance := fun _ _ => 1
  PyObject_IsSubclass := fun _ _ => 1
  PyObject_Hash := fun x => x.ident.2

/-- A host in which distinct objects are never equal, and an object
is an instance and a subclass of the class at address `1` only. -/
def narrow_host : Host where
  richcompare_eq := fun _ _ => 0
  PyObject_IsInstance := fun _ cls => if cls.same (.type 1) then 1 else 0
  PyObject_IsSubclass := fun _ cls => if cls.same (.type 1) then 1 else 0
  PyObject_Hash := fun x => x.ident.2

/-- A host in which distinct objects are never equal, and the only instance
relation is that of `None` to its class `_PyNone_Type`. -/
def none_host : Host where
  richcompare_eq := fun _ _ => 0
  PyObject_IsInstance := fun inst cls =>
    if inst.same .Py_None && cls.same .PyNone_Type then 1 else 0
  PyObject_IsSubclass := fun _ _ => 0
  PyObject_Hash := fun x => x.ident.2

/-- Modelled from the spec: the host primitive `PyFrozenSet_New(iterable)`, not
defined in this file of the repository: the unordered-set view of a tuple, as
the list of its entries. -/
def PyFrozenSet_New (h : Host) (iterable : List PyObj) : Except PyErr (List PyObj) :=
  set_update h iterable []

/-- `intersection_hash`; `-1` is the failure value of `Py_hash_t`.
`frozenset_hash` is the host's hash of a frozen set (`PyObject_Hash` on the set
view), not defined in this file of the repository.  Modelled from the spec: it
is the hash of an unordered view, a function of the hashes of the entries
whatever their order. -/
def intersection_hash (h : Host) (frozenset_hash : Multiset Int → Int) (self : PyObj) :
    Int :=
  match PyFrozenSet_New h self.args with
  | .error _ => -1
  | .ok args => frozenset_hash (Multiset.ofList (args.map h.PyObject_Hash))

/-- The host primitives the renderer calls. -/
structure ReprHost where
  /-- `_PyObject_LookupAttr(p, name, &tmp)`: an error when the lookup raised,
  `none` when the attribute is absent (`tmp == NULL`). -/
  LookupAttr : PyObj → String → Except PyErr (Option PyObj)
  /-- `PyObject_Str(op)`, as the text of the resulting string. -/
  PyObject_Str : PyObj → Except PyErr String
  /-- `PyObject_Repr(op)`, as the text of the resulting string. -/
  PyObject_Repr : PyObj → Except PyErr String
  /-- `PyUnicode_Check(op)`. -/
  PyUnicode_Check : PyObj → Bool
  /-- `_PyUnicode_EqualToASCIIString(op, str)`. -/
  PyUnicode_EqualToASCIIString : PyObj → String → Bool

/-- `PyUnicode_FromFormat("%S.%S", module, qualname)`. -/
def format_module_qualname (rh : ReprHost) (module qualname : PyObj) :
    Except PyErr String :=
  match rh.PyObject_Str module with
  | .error e => .error e
  | .ok m =>
    match rh.PyObject_Str qualname with
    | .error e => .error e
    | .ok q => .ok (m ++ "." ++ q)

/-- `intersection_repr_item`, for an operand other than `_PyNone_Type`: the
string `r` at the label `exit`; an error stands for `r == NULL`. -/
def intersection_repr_item_r (rh : ReprHost) (p : PyObj) : Except PyErr String :=
  match rh.LookupAttr p "__origin__" with
  | .error e => .error e
  | .ok origin =>
    let looks_like_generic : Except PyErr Bool :=
      match origin with
      | none => .ok false
      | some _ =>
        match rh.LookupAttr p "__args__" with
        | .error e => .error e
        | .ok none => .ok false
        | .ok (some _) => .ok true
    match looks_like_generic with
    | .error e => .error e
    | .ok true => rh.PyObject_Repr p
    | .ok false =>
      match rh.LookupAttr p "__qualname__" with
      | .error e => .error e
      | .ok none => rh.PyObject_Repr p
      | .ok (some qualname) =>
        match rh.LookupAttr p "__module__" with
        | .error e => .error e
        | .ok none => rh.PyObject_Repr p
        | .ok (some module) =>
          if module.same .Py_None then rh.PyObject_Repr p
          else if rh.PyUnicode_Check module &&
              rh.PyUnicode_EqualToASCIIString module "builtins" then
            rh.PyObject_Str qualname
          else format_module_qualname rh module qualname

/-- `intersection_repr_item`: the content of the writer afterwards. -/
def intersection_repr_item (rh : ReprHost) (writer : String) (p : PyObj) :
    Except PyErr String :=
  if p.same .PyNone_Type then .ok (writer ++ "None")
  else
    match intersection_repr_item_r rh p with
    | .error e => .error e
    | .ok r => .ok (writer ++ r)

/-- `intersection_repr`, the loop: `i` is the index of the first operand left. -/
def intersection_repr_loop (rh : ReprHost) : Nat → List PyObj → String → Except PyErr String
  | _, [], writer => .ok writer
  | i, p :: rest, writer =>
    match intersection_repr_item rh (if i > 0 then writer ++ " & " else writer) p with
    | .error e => .error e
    | .ok writer => intersection_repr_loop rh (i + 1) rest writer

/-- `intersection_repr`. -/
def intersection_repr (rh : ReprHost) (self : PyObj) : Except PyErr String :=
  intersection_repr_loop rh 0 self.args ""

/-- A renderer host with two builtin classes, `int` at address `1` and `str` at
address `2`, a class `Foo` of module `pkg.mod` at address `3`, and a generic
alias at address `4` shown as `list[int]`.  The strings are the objects at
addresses `100` and up. -/
def example_repr_host : ReprHost where
  LookupAttr := fun p name =>
    match p, name with
    | .type 1, "__qualname__" => .ok (some (.object 101))
    | .type 2, "__qualname__" => .ok (some (.object 102))
    | .type 3, "__qualname__" => .ok (some (.object 103))
    | .type 1, "__module__" => .ok (some (.object 100))
    | .type 2, "__module__" => .ok (some (.object 100))
    | .type 3, "__module__" => .ok (some (.object 104))
    | .GenericAlias 4, "__origin__" => .ok (some (.object 105))
    | .GenericAlias 4, "__args__" => .ok (some (.object 106))
    | _, _ => .ok none
  PyObject_Str := fun o =>
    match o with
    | .object 100 => .ok "builtins"
    | .object 101 => .ok "int"
    | .object 102 => .ok "str"
    | .object 103 => .ok "Foo"
    | .object 104 => .ok "pkg.mod"
    | _ => .error .Raised
  PyObject_Repr := fun o =>
    match o with
    | .GenericAlias 4 => .ok "list[int]"
    | _ => .error .Raised
  PyUnicode_Check := fun o =>
    match o with
    | .object n => 100 ≤ n && n ≤ 104
    | _ => false
  PyUnicode_EqualToASCIIString := fun o str =>
    match o with
    | .object 100 => str == "builtins"
    | _ => false

/-- A host in which comparing the generic alias at address `99` with another
object fails, and distinct objects are otherwise never equal. -/
def failing_host : Host where
  richcompare_eq := fun v _ =>
    match v with
    | .GenericAlias 99 => -1
    | _ => 0
  PyObject_IsInstance := fun _ _ => 0
  PyObject_IsSubclass := fun _ _ => 0
  PyObject_Hash := fun x => x.ident.2

/-- The spec's `is_class_like`, in the spec's words: a plain class, the
`ConcreteType` operand that the data model keeps apart from the none marker.
The gate of the code's membership checks is `PyType_Check`, which holds of the
none marker `_PyNone_Type` too. -/
def spec_is_class_like (x : PyObj) : Bool :=
  PyType_Check x && !x.same .PyNone_Type

/-! ## Identity -/

theorem PyObj.same_iff (a b : PyObj) : a.same b = true ↔ a.ident = b.ident := by
  simp [PyObj.same]

theorem PyObj.same_refl (a : PyObj) : a.same a = true := by
  simp [PyObj.same]

theorem PyObj.same_comm (a b : PyObj) : a.same b = b.same a := by
  unfold PyObj.same
  by_cases hab : a.ident = b.ident
  · simp [hab]
  · have hba : ¬ b.ident = a.ident := fun e => hab e.symm
    simp [hab, hba]

theorem PyObj.same_none_iff (x : PyObj) : x.same .Py_None = true ↔ x = .Py_None := by
  cases x <;> simp [PyObj.same, PyObj.ident]

/-! ## The normalizer: working lemmas -/

theorem flatten_args_cons (x : PyObj) (rest : List PyObj) :
    flatten_args (x :: rest) =
      (if _PyIntersection_Check x then x.args
        else [if x.same .Py_None then PyObj.PyNone_Type else x]) ++ flatten_args rest := by
  cases x <;> simp [flatten_args, _PyIntersection_Check, PyObj.args]

/-- The `assert(pos == total_args)` of `flatten_args`. -/
theorem flatten_args_length (args : List PyObj) :
    (flatten_args args).length = flatten_args_total args := by
  induction args with
  | nil => rfl
  | cons x xs ih =>
    cases x <;> simp [flatten_args, flatten_args_total, ih] <;> omega

theorem flatten_args_append (xs ys : List PyObj) :
    flatten_args (xs ++ ys) = flatten_args xs ++ flatten_args ys := by
  induction xs with
  | nil => simp [flatten_args]
  | cons x xs ih => simp [flatten_args_cons, ih]

theorem flatten_args_mem {args : List PyObj} {y : PyObj} (hy : y ∈ flatten_args args) :
    ∃ x ∈ args, (_PyIntersection_Check x = true ∧ y ∈ x.args) ∨
      (_PyIntersection_Check x = false ∧
        y = if x.same .Py_None then PyObj.PyNone_Type else x) := by
  induction args with
  | nil => simp [flatten_args] at hy
  | cons x xs ih =>
    rw [flatten_args_cons, List.mem_append] at hy
    rcases hy with hy | hy
    · refine ⟨x, List.mem_cons_self _ _, ?_⟩
      by_cases hx : _PyIntersection_Check x = true
      · left
        rw [if_pos hx] at hy
        exact ⟨hx, hy⟩
      · right
        rw [if_neg hx] at hy
        exact ⟨by simpa using hx, by simpa using hy⟩
    · obtain ⟨x', hx', hor⟩ := ih hy
      exact ⟨x', List.mem_cons_of_mem _ hx', hor⟩

theorem dedup_loop_cons (h : Host) (x : PyObj) (rest acc : List PyObj) :
    dedup_loop h (x :: rest) acc =
      if dedup_scan h x acc < 0 then .error .Raised
      else if dedup_scan h x acc = 0 then dedup_loop h rest (acc ++ [x])
      else dedup_loop h rest acc := rfl

theorem dedup_loop_append (h : Host) (xs ys acc : List PyObj) :
    dedup_loop h (xs ++ ys) acc = (dedup_loop h xs acc).bind (dedup_loop h ys) := by
  induction xs generalizing acc with
  | nil => rfl
  | cons x xs ih =>
    simp only [List.cons_append, dedup_loop_cons]
    split_ifs
    · rfl
    · exact ih _
    · exact ih _

theorem dedup_loop_mem (h : Host) {xs acc out : List PyObj}
    (hout : dedup_loop h xs acc = .ok out) : ∀ y ∈ out, y ∈ acc ∨ y ∈ xs := by
  induction xs generalizing acc with
  | nil =>
    simp only [dedup_loop, Except.ok.injEq] at hout
    subst hout
    intro y hy
    exact Or.inl hy
  | cons x xs ih =>
    rw [dedup_loop_cons] at hout
    intro y hy
    split_ifs at hout
    · rcases ih hout y hy with hm | hm
      · rcases List.mem_append.1 hm with hm | hm
        · exact Or.inl hm
        · right
          rw [List.mem_singleton.1 hm]
          exact List.mem_cons_self _ _
      · exact Or.inr (List.mem_cons_of_mem _ hm)
    · rcases ih hout y hy with hm | hm
      · exact Or.inl hm
      · exact Or.inr (List.mem_cons_of_mem _ hm)

theorem dedup_loop_extends (h : Host) {xs acc out : List PyObj}
    (hout : dedup_loop h xs acc = .ok out) : acc <+: out := by
  induction xs generalizing acc with
  | nil =>
    simp only [dedup_loop, Except.ok.injEq] at hout
    subst hout
    exact List.prefix_refl _
  | cons x xs ih =>
    rw [dedup_loop_cons] at hout
    split_ifs at hout
    · exact List.IsPrefix.trans (List.prefix_append _ _) (ih hout)
    · exact ih hout

theorem flatten_args_classified {args : List PyObj}
    (hargs : ∀ x ∈ args, is_intersectionable x = true ∧ x.operands_classified = true) :
    ∀ y ∈ flatten_args args, (PyType_Check y || _PyGenericAlias_Check y) = true := by
  intro y hy
  obtain ⟨x, hx, hor⟩ := flatten_args_mem hy
  obtain ⟨hint, hcl⟩ := hargs x hx
  rcases hor with ⟨_, hmem⟩ | ⟨hni, hyx⟩
  · exact (List.all_eq_true.1 hcl) y hmem
  · subst hyx
    cases x <;>
      simp_all [is_intersectionable, PyObj.same, PyObj.ident, PyType_Check,
        _PyGenericAlias_Check, _PyIntersection_Check]

theorem dedup_and_flatten_args_classified (h : Host) {args out : List PyObj}
    (hargs : ∀ x ∈ args, is_intersectionable x = true ∧ x.operands_classified = true)
    (hout : dedup_and_flatten_args h args = .ok out) :
    ∀ y ∈ out, (PyType_Check y || _PyGenericAlias_Check y) = true := by
  intro y hy
  rcases dedup_loop_mem h hout y hy with hm | hm
  · simp at hm
  · exact flatten_args_classified hargs y hm

/-! ## The binary combinator -/

/-- C1. `_Py_intersection_type_and(left, right)` returns `NotImplemented` exactly
when `is_intersectionable` fails for at least one operand, and otherwise returns
an object or an error; `is_intersectionable(x)` holds exactly when `x` is
`None`, a class, a generic alias or an intersection object.  The operands are
objects of the data model: an intersection object among them has classes and
generic aliases as operands. -/
theorem type_and_notimplemented_iff (h : Host) (addr : Nat) (left right : PyObj)
    (hl : left.operands_classified = true) (hr : right.operands_classified = true) :
    (_Py_intersection_type_and h addr left right = .ok .Py_NotImplemented ↔
      (is_intersectionable left = false ∨ is_intersectionable right = false)) ∧
    (∀ x : PyObj, is_intersectionable x = true ↔
      (x = .Py_None ∨ PyType_Check x = true ∨ _PyGenericAlias_Check x = true ∨
        _PyIntersection_Check x = true)) := by
  refine ⟨⟨?_, ?_⟩, ?_⟩
  · intro hres
    by_contra hcon
    have hli : is_intersectionable left = true := by
      by_contra hx; exact hcon (Or.inl (by simpa using hx))
    have hri : is_intersectionable right = true := by
      by_contra hx; exact hcon (Or.inr (by simpa using hx))
    have hargs : ∀ x ∈ [left, right],
        is_intersectionable x = true ∧ x.operands_classified = true := by
      intro x hx
      simp only [List.mem_cons, List.mem_singleton, List.not_mem_nil, or_false] at hx
      rcases hx with rfl | rfl
      · exact ⟨hli, hl⟩
      · exact ⟨hri, hr⟩
    simp only [_Py_intersection_type_and, hli, hri, Bool.not_true, Bool.or_self,
      Bool.false_eq_true, if_false, make_intersection] at hres
    split at hres
    · cases hres
    · next e heq =>
      have hcl := dedup_and_flatten_args_classified h hargs heq e (List.mem_singleton_self _)
      simp only [Except.ok.injEq] at hres
      subst hres
      simp [PyType_Check, _PyGenericAlias_Check] at hcl
    · cases hres
  · intro hor
    unfold _Py_intersection_type_and
    rcases hor with hx | hx <;> simp [hx]
  · intro x
    simp only [is_intersectionable, Bool.or_eq_true, PyObj.same_none_iff]
    tauto

theorem type_and_notimplemented_iff_witness :
    (PyObj.type 1).operands_classified = true ∧
    (PyObj.Intersection 9 [.type 2, .GenericAlias 3] none).operands_classified = true ∧
    ((_Py_intersection_type_and plain_host 0 (.type 1)
        (.Intersection 9 [.type 2, .GenericAlias 3] none) = .ok .Py_NotImplemented ↔
      (is_intersectionable (.type 1) = false ∨
        is_intersectionable (.Intersection 9 [.type 2, .GenericAlias 3] none) = false)) ∧
    (∀ x : PyObj, is_intersectionable x = true ↔
      (x = .Py_None ∨ PyType_Check x = true ∨ _PyGenericAlias_Check x = true ∨
        _PyIntersection_Check x = true))) :=
  ⟨rfl, rfl, type_and_notimplemented_iff plain_host 0 _ _ rfl rfl⟩

theorem is_duplicate_self (h : Host) (c : PyObj) : is_duplicate h c c = 1 := by
  simp [is_duplicate, PyObject_RichCompareBool, PyObj.same_refl]

/-- C2, as the code has it.  For an operand `T` that `is_intersectionable`
accepts and that is not an intersection object, `T & T` is `T` itself when `T`
is a class or a generic alias, and is the type object `_PyNone_Type` when `T`
is `None`; it is never a new intersection object. -/
theorem type_and_self (h : Host) (addr : Nat) (T : PyObj)
    (hT : is_intersectionable T = true) (hni : _PyIntersection_Check T = false) :
    _Py_intersection_type_and h addr T T =
      .ok (if T.same .Py_None then .PyNone_Type else T) := by
  have hfl : flatten_args [T, T] =
      [if T.same .Py_None then PyObj.PyNone_Type else T,
        if T.same .Py_None then PyObj.PyNone_Type else T] := by
    simp [flatten_args_cons, hni, flatten_args]
  simp only [_Py_intersection_type_and, hT, Bool.not_true, Bool.or_self, Bool.false_eq_true,
    if_false, make_intersection, dedup_and_flatten_args, hfl, dedup_loop_cons, dedup_scan,
    is_duplicate_self, List.nil_append]
  simp [dedup_loop]

theorem type_and_self_witness :
    is_intersectionable (.GenericAlias 5) = true ∧
    _PyIntersection_Check (.GenericAlias 5) = false ∧
    _Py_intersection_type_and plain_host 0 (.GenericAlias 5) (.GenericAlias 5) =
      .ok (.GenericAlias 5) :=
  ⟨rfl, rfl, type_and_self plain_host 0 _ rfl rfl⟩

/-- C2 fails as stated at `T = None`: `None & None` is the type object
`_PyNone_Type`, not `None` itself. -/
theorem type_and_none_none :
    is_intersectionable .Py_None = true ∧ _PyIntersection_Check .Py_None = false ∧
    _Py_intersection_type_and plain_host 0 .Py_None .Py_None = .ok .PyNone_Type ∧
    _Py_intersection_type_and plain_host 0 .Py_None .Py_None ≠ .ok .Py_None := by
  refine ⟨rfl, rfl, rfl, ?_⟩
  show (Except.ok PyObj.PyNone_Type : Except PyErr PyObj) ≠ .ok .Py_None
  intro hcon
  cases hcon

/-! ## Flattening law -/

theorem dedup_loop_singleton (h : Host) {x : PyObj} {acc : List PyObj}
    (hx : dedup_scan h x acc = 0) : dedup_loop h [x] acc = .ok (acc ++ [x]) := by
  simp [dedup_loop_cons, hx, dedup_loop]

/-- Running the dedup loop again over its own output accepts every element. -/
theorem dedup_loop_stable (h : Host) {xs acc out : List PyObj}
    (hacc : dedup_loop h acc [] = .ok acc) (hout : dedup_loop h xs acc = .ok out) :
    dedup_loop h out [] = .ok out := by
  induction xs generalizing acc with
  | nil =>
    simp only [dedup_loop, Except.ok.injEq] at hout
    subst hout
    exact hacc
  | cons x xs ih =>
    rw [dedup_loop_cons] at hout
    split_ifs at hout with h1 h2
    · refine ih ?_ hout
      rw [dedup_loop_append, hacc]
      exact dedup_loop_singleton h h2
    · exact ih hacc hout

theorem dedup_and_flatten_args_stable (h : Host) {args out : List PyObj}
    (hout : dedup_and_flatten_args h args = .ok out) : dedup_loop h out [] = .ok out :=
  @dedup_loop_stable h _ [] _ rfl hout

theorem make_intersection_view (h : Host) (a a' : Nat) {args args' : List PyObj}
    (heq : dedup_and_flatten_args h args = dedup_and_flatten_args h args') :
    (make_intersection h a args).map PyObj.result_view =
      (make_intersection h a' args').map PyObj.result_view := by
  unfold make_intersection
  rw [heq]
  split <;> rfl

/-- C3. For operands `A`, `B`, `C` accepted by `is_intersectionable` (an
intersection object among `A`, `B` having classes and generic aliases as
operands), `(A & B) & C` hands back what `make_intersection` hands back on the
tuple `(A, B, C)`: the same absorbed operand, or an intersection object with the
same operand sequence; and the one fails exactly when the other does. -/
theorem flattening_law (h : Host) (a1 a2 a3 : Nat) (A B C : PyObj)
    (hA : is_intersectionable A = true) (hB : is_intersectionable B = true)
    (hC : is_intersectionable C = true)
    (cA : A.operands_classified = true) (cB : B.operands_classified = true) :
    ((_Py_intersection_type_and h a1 A B).bind
        fun AB => _Py_intersection_type_and h a2 AB C).map PyObj.result_view =
      (make_intersection h a3 [A, B, C]).map PyObj.result_view := by
  have hargs : ∀ x ∈ [A, B],
      is_intersectionable x = true ∧ x.operands_classified = true := by
    intro x hx
    simp only [List.mem_cons, List.mem_singleton, List.not_mem_nil, or_false] at hx
    rcases hx with rfl | rfl
    · exact ⟨hA, cA⟩
    · exact ⟨hB, cB⟩
  have hone : dedup_and_flatten_args h [A, B, C] =
      (dedup_and_flatten_args h [A, B]).bind (dedup_loop h (flatten_args [C])) := by
    unfold dedup_and_flatten_args
    rw [← dedup_loop_append, ← flatten_args_append]
    rfl
  have hAB : _Py_intersection_type_and h a1 A B = make_intersection h a1 [A, B] := by
    simp [_Py_intersection_type_and, hA, hB]
  rw [hAB]
  cases hD : dedup_and_flatten_args h [A, B] with
  | error e =>
    have h1 : make_intersection h a1 [A, B] = .error e := by
      simp [make_intersection, hD]
    have h3 : make_intersection h a3 [A, B, C] = .error e := by
      simp [make_intersection, hone, hD, Except.bind]
    rw [h1, h3]
    rfl
  | ok L1 =>
    have hcl := dedup_and_flatten_args_classified h hargs hD
    by_cases hlen : ∃ e, L1 = [e]
    · obtain ⟨e, rfl⟩ := hlen
      have h1 : make_intersection h a1 [A, B] = .ok e := by
        simp [make_intersection, hD]
      have he := hcl e (List.mem_singleton_self _)
      have hei : is_intersectionable e = true := by
        simp only [is_intersectionable, Bool.or_eq_true] at he ⊢
        tauto
      have hfl : flatten_args [e, C] = [e] ++ flatten_args [C] := by
        rw [flatten_args_cons]
        cases e <;> simp_all [PyType_Check, _PyGenericAlias_Check, _PyIntersection_Check,
          PyObj.same, PyObj.ident]
      rw [h1]
      show (_Py_intersection_type_and h a2 e C).map PyObj.result_view = _
      have h2 : _Py_intersection_type_and h a2 e C = make_intersection h a2 [e, C] := by
        simp [_Py_intersection_type_and, hei, hC]
      rw [h2]
      apply make_intersection_view
      rw [hone, hD]
      unfold dedup_and_flatten_args
      rw [hfl, dedup_loop_append]
      rfl
    · have h1 : make_intersection h a1 [A, B] = .ok (.Intersection a1 L1 none) := by
        unfold make_intersection
        rw [hD]
        split
        · next heq => cases heq
        · next e heq =>
          simp only [Except.ok.injEq] at heq
          exact absurd ⟨e, heq⟩ hlen
        · next heq =>
          simp only [Except.ok.injEq] at heq
          rw [heq]
      rw [h1]
      show (_Py_intersection_type_and h a2 (.Intersection a1 L1 none) C).map
        PyObj.result_view = _
      have h2 : _Py_intersection_type_and h a2 (.Intersection a1 L1 none) C =
          make_intersection h a2 [.Intersection a1 L1 none, C] := by
        have hI : is_intersectionable (.Intersection a1 L1 none) = true := by
          simp [is_intersectionable, _PyIntersection_Check]
        simp [_Py_intersection_type_and, hI, hC]
      rw [h2]
      apply make_intersection_view
      rw [hone, hD]
      unfold dedup_and_flatten_args
      have hfl : flatten_args [.Intersection a1 L1 none, C] = L1 ++ flatten_args [C] := by
        rw [flatten_args_cons]
        simp [_PyIntersection_Check, PyObj.args]
      rw [hfl, dedup_loop_append, dedup_and_flatten_args_stable h hD]

theorem flattening_law_witness :
    is_intersectionable (.type 1) = true ∧
    is_intersectionable (.Intersection 9 [.type 2, .GenericAlias 3] none) = true ∧
    is_intersectionable (.type 2) = true ∧
    (PyObj.type 1).operands_classified = true ∧
    (PyObj.Intersection 9 [.type 2, .GenericAlias 3] none).operands_classified = true ∧
    ((_Py_intersection_type_and plain_host 10 (.type 1)
        (.Intersection 9 [.type 2, .GenericAlias 3] none)).bind
        fun AB => _Py_intersection_type_and plain_host 11 AB (.type 2)).map
          PyObj.result_view =
      (make_intersection plain_host 12
        [.type 1, .Intersection 9 [.type 2, .GenericAlias 3] none, .type 2]).map
          PyObj.result_view :=
  ⟨rfl, rfl, rfl, rfl, rfl, flattening_law plain_host 10 11 12 _ _ _ rfl rfl rfl rfl rfl⟩

/-! ## Invariants of the constructed value -/

theorem flatten_args_no_intersection {args : List PyObj}
    (hargs : ∀ x ∈ args, x.I1 = true) :
    ∀ y ∈ flatten_args args, _PyIntersection_Check y = false := by
  intro y hy
  obtain ⟨x, hx, hor⟩ := flatten_args_mem hy
  rcases hor with ⟨_, hmem⟩ | ⟨hni, hyx⟩
  · simpa using (List.all_eq_true.1 (hargs x hx)) y hmem
  · subst hyx
    split_ifs
    · rfl
    · exact hni

theorem make_intersection_I1 (h : Host) (addr : Nat) {args : List PyObj} {r : PyObj}
    (hargs : ∀ x ∈ args, x.I1 = true) (hr : make_intersection h addr args = .ok r) :
    r.I1 = true := by
  have hno : ∀ out, dedup_and_flatten_args h args = .ok out →
      ∀ y ∈ out, _PyIntersection_Check y = false := by
    intro out hout y hy
    rcases dedup_loop_mem h hout y hy with hm | hm
    · simp at hm
    · exact flatten_args_no_intersection hargs y hm
  unfold make_intersection at hr
  split at hr
  · cases hr
  · next e heq =>
    simp only [Except.ok.injEq] at hr
    subst hr
    have he := hno _ heq e (List.mem_singleton_self _)
    cases e <;> simp_all [PyObj.I1, PyObj.args, _PyIntersection_Check]
  · next out _ heq =>
    simp only [Except.ok.injEq] at hr
    subst hr
    simp only [PyObj.I1, PyObj.args, List.all_eq_true, Bool.not_eq_eq_eq_not, Bool.not_true]
    exact hno _ heq

/-- C5 (invariant I1).  When the intersection objects among the inputs have no
intersection object among their operands, neither has the object handed back by
`make_intersection` on any tuple, nor the one handed back by
`_Py_intersection_type_and`. -/
theorem construction_keeps_I1 (h : Host) (addr : Nat) (args : List PyObj)
    (left right : PyObj) (hargs : ∀ x ∈ args, x.I1 = true)
    (hl : left.I1 = true) (hr : right.I1 = true) :
    (∀ r, make_intersection h addr args = .ok r → r.I1 = true) ∧
    (∀ r, _Py_intersection_type_and h addr left right = .ok r → r.I1 = true) := by
  refine ⟨fun r hres => make_intersection_I1 h addr hargs hres, ?_⟩
  intro r hres
  unfold _Py_intersection_type_and at hres
  split_ifs at hres
  · simp only [Except.ok.injEq] at hres
    subst hres
    rfl
  · refine make_intersection_I1 h addr ?_ hres
    intro x hx
    simp only [List.mem_cons, List.mem_singleton, List.not_mem_nil, or_false] at hx
    rcases hx with rfl | rfl
    · exact hl
    · exact hr

theorem construction_keeps_I1_witness :
    (∀ x ∈ [PyObj.Intersection 9 [.type 2, .GenericAlias 3] none, .Py_None],
      x.I1 = true) ∧
    (PyObj.Intersection 9 [.type 2, .GenericAlias 3] none).I1 = true ∧
    (PyObj.type 1).I1 = true ∧
    make_intersection plain_host 0
      [PyObj.Intersection 9 [.type 2, .GenericAlias 3] none, .Py_None] =
        .ok (.Intersection 0 [.type 2, .GenericAlias 3, .PyNone_Type] none) ∧
    (PyObj.Intersection 0 [.type 2, .GenericAlias 3, .PyNone_Type] none).I1 = true ∧
    _Py_intersection_type_and plain_host 0
      (PyObj.Intersection 9 [.type 2, .GenericAlias 3] none) (.type 1) =
        .ok (.Intersection 0 [.type 2, .GenericAlias 3, .type 1] none) ∧
    (PyObj.Intersection 0 [.type 2, .GenericAlias 3, .type 1] none).I1 = true :=
  have hargs : ∀ x ∈ [PyObj.Intersection 9 [.type 2, .GenericAlias 3] none, .Py_None],
      x.I1 = true := by
    intro x hx
    simp only [List.mem_cons, List.mem_singleton, List.not_mem_nil, or_false] at hx
    rcases hx with rfl | rfl <;> rfl
  have key := construction_keeps_I1 plain_host 0
    [PyObj.Intersection 9 [.type 2, .GenericAlias 3] none, .Py_None]
    (PyObj.Intersection 9 [.type 2, .GenericAlias 3] none) (.type 1) hargs rfl rfl
  ⟨hargs, rfl, rfl, rfl, key.1 _ rfl, rfl, key.2 _ rfl⟩

theorem dedup_scan_eq_zero_iff (h : Host) (x : PyObj) (acc : List PyObj) :
    dedup_scan h x acc = 0 ↔ ∀ a ∈ acc, is_duplicate h x a = 0 := by
  induction acc with
  | nil => simp [dedup_scan]
  | cons a acc ih =>
    simp only [dedup_scan, List.mem_cons, forall_eq_or_imp]
    split_ifs with h1 h2
    · constructor
      · intro h0
        omega
      · intro h0
        exact h0.1
    · constructor
      · intro h0
        exact absurd h0 h2
      · intro h0
        exact h0.1
    · rw [ih]
      have h0 : is_duplicate h x a = 0 := by
        by_contra hne
        exact h2 hne
      simp [h0]

theorem is_duplicate_eq_zero_not_same (h : Host) {x a : PyObj}
    (h0 : is_duplicate h x a = 0) : a.same x = false := by
  by_contra hne
  have hs : x.same a = true := by
    rw [PyObj.same_comm]
    simpa using hne
  simp [is_duplicate, PyObject_RichCompareBool, hs] at h0

theorem dedup_loop_pairwise (h : Host) {xs acc out : List PyObj}
    (hacc : acc.Pairwise fun earlier later => is_duplicate h later earlier = 0)
    (hout : dedup_loop h xs acc = .ok out) :
    out.Pairwise fun earlier later => is_duplicate h later earlier = 0 := by
  induction xs generalizing acc with
  | nil =>
    simp only [dedup_loop, Except.ok.injEq] at hout
    subst hout
    exact hacc
  | cons x xs ih =>
    rw [dedup_loop_cons] at hout
    split_ifs at hout with h1 h2
    · refine ih ?_ hout
      rw [List.pairwise_append]
      refine ⟨hacc, List.pairwise_singleton _ _, ?_⟩
      intro a ha b hb
      rw [List.mem_singleton.1 hb]
      exact (dedup_scan_eq_zero_iff h x acc).1 h2 a ha
    · exact ih hacc hout

/-- C6 (invariant I2).  When no comparison fails, the tuple returned by
`dedup_and_flatten_args` has no element that is a duplicate of an element before
it, compared the way the loop compares them (`is_duplicate`, the later element
as the candidate): the two are not the same object, and when both are generic
aliases their comparison does not report them equal.  When the comparison of
the elements is symmetric, the earlier element is no duplicate of the later one
either. -/
theorem dedup_no_duplicates (h : Host) (args out : List PyObj)
    (hout : dedup_and_flatten_args h args = .ok out) :
    (out.Pairwise fun earlier later =>
      is_duplicate h later earlier = 0 ∧ earlier.same later = false ∧
      (_PyGenericAlias_Check earlier = true → _PyGenericAlias_Check later = true →
        PyObject_RichCompareBool h later earlier = 0)) ∧
    ((∀ x ∈ out, ∀ y ∈ out, PyObject_RichCompareBool h x y = 0 →
        PyObject_RichCompareBool h y x = 0) →
      out.Pairwise fun earlier later => is_duplicate h earlier later = 0) := by
  have hp := @dedup_loop_pairwise h _ [] _ List.Pairwise.nil hout
  constructor
  · refine hp.imp ?_
    intro a b h0
    refine ⟨h0, is_duplicate_eq_zero_not_same h h0, ?_⟩
    intro ha hb
    simpa [is_duplicate, ha, hb] using h0
  · intro hsym
    refine hp.imp_of_mem ?_
    intro a b ha hb h0
    have hs := is_duplicate_eq_zero_not_same h h0
    by_cases hga : (_PyGenericAlias_Check a && _PyGenericAlias_Check b) = true
    · have hga' : (_PyGenericAlias_Check b && _PyGenericAlias_Check a) = true := by
        rw [Bool.and_comm]
        exact hga
      have hba : PyObject_RichCompareBool h b a = 0 := by
        simpa [is_duplicate, hga'] using h0
      simpa [is_duplicate, hga] using hsym b hb a ha hba
    · simp [is_duplicate, hga, hs]

theorem dedup_no_duplicates_witness :
    dedup_and_flatten_args plain_host
      [.type 1, .Intersection 9 [.type 2, .type 1, .GenericAlias 3] none, .GenericAlias 3,
        .Py_None, .PyNone_Type] =
      .ok [.type 1, .type 2, .GenericAlias 3, .PyNone_Type] ∧
    [PyObj.type 1, .type 2, .GenericAlias 3, .PyNone_Type].Pairwise
      (fun earlier later =>
        is_duplicate plain_host later earlier = 0 ∧ earlier.same later = false ∧
        (_PyGenericAlias_Check earlier = true → _PyGenericAlias_Check later = true →
          PyObject_RichCompareBool plain_host later earlier = 0)) :=
  ⟨rfl, (dedup_no_duplicates plain_host
    [.type 1, .Intersection 9 [.type 2, .type 1, .GenericAlias 3] none, .GenericAlias 3,
      .Py_None, .PyNone_Type] _ rfl).1⟩

/-- C7 (invariant I3, collapse rule).  When flatten and dedup leave exactly one
element, `make_intersection` returns that element itself; when they leave none
or at least two, it returns a new intersection object whose `args` is the
deduped tuple and whose `parameters` is unset; so an intersection object with
exactly one operand is never built: if one is returned, it is the single element
that was left. -/
theorem make_intersection_collapse (h : Host) (addr : Nat) (args : List PyObj) :
    (∀ e, dedup_and_flatten_args h args = .ok [e] →
      make_intersection h addr args = .ok e) ∧
    (∀ out, dedup_and_flatten_args h args = .ok out → out.length ≠ 1 →
      make_intersection h addr args = .ok (.Intersection addr out none)) ∧
    (∀ a out p, make_intersection h addr args = .ok (.Intersection a out p) →
      out.length = 1 →
      dedup_and_flatten_args h args = .ok [.Intersection a out p]) := by
  refine ⟨?_, ?_, ?_⟩
  · intro e he
    simp [make_intersection, he]
  · intro out hout hlen
    unfold make_intersection
    rw [hout]
    split
    · next heq => cases heq
    · next e heq =>
      simp only [Except.ok.injEq] at heq
      subst heq
      simp at hlen
    · next heq =>
      simp only [Except.ok.injEq] at heq
      rw [heq]
  · intro a out p hres hlen
    unfold make_intersection at hres
    split at hres
    · cases hres
    · next e heq =>
      simp only [Except.ok.injEq] at hres
      rw [heq, hres]
    · next out' hne heq =>
      simp only [Except.ok.injEq, PyObj.Intersection.injEq] at hres
      obtain ⟨_, rfl, _⟩ := hres
      cases out' with
      | nil => simp at hlen
      | cons e t =>
        cases t with
        | nil => exact absurd rfl (hne e)
        | cons _ _ => simp at hlen

theorem make_intersection_collapse_witness :
    (dedup_and_flatten_args plain_host [.type 1, .Intersection 9 [] none, .type 1] =
        .ok [.type 1] ∧
      make_intersection plain_host 0 [.type 1, .Intersection 9 [] none, .type 1] =
        .ok (.type 1)) ∧
    (dedup_and_flatten_args plain_host [.type 1, .Py_None] =
        .ok [.type 1, .PyNone_Type] ∧
      make_intersection plain_host 0 [.type 1, .Py_None] =
        .ok (.Intersection 0 [.type 1, .PyNone_Type] none)) ∧
    (dedup_and_flatten_args plain_host [] = .ok [] ∧
      make_intersection plain_host 0 [] = .ok (.Intersection 0 [] none)) :=
  ⟨⟨rfl, (make_intersection_collapse plain_host 0 _).1 _ rfl⟩,
    ⟨rfl, (make_intersection_collapse plain_host 0 _).2.1 _ rfl (by decide)⟩,
    ⟨rfl, (make_intersection_collapse plain_host 0 _).2.1 _ rfl (by decide)⟩⟩

/-! ## Membership checks -/

theorem is_generic_alias_in_args_eq_zero_iff (args : List PyObj) :
    is_generic_alias_in_args args = 0 ↔ ∃ x ∈ args, _PyGenericAlias_Check x = true := by
  induction args with
  | nil => simp [is_generic_alias_in_args]
  | cons a args ih =>
    simp only [is_generic_alias_in_args, List.mem_cons, exists_eq_or_imp]
    split_ifs with ha
    · simp [ha]
    · simp [ha, ih]

theorem type_not_generic_alias {x : PyObj} (hx : PyType_Check x = true) :
    _PyGenericAlias_Check x = false := by
  cases x <;> simp_all [PyType_Check, _PyGenericAlias_Check]

theorem type_and_two_classes (h : Host) (addr : Nat) {A B : PyObj}
    (hA : PyType_Check A = true) (hB : PyType_Check B = true)
    (hAB : A.same B = false) :
    _Py_intersection_type_and h addr A B = .ok (.Intersection addr [A, B] none) := by
  have hBA : B.same A = false := by rw [PyObj.same_comm]; exact hAB
  have hAi : is_intersectionable A = true := by simp [is_intersectionable, hA]
  have hBi : is_intersectionable B = true := by simp [is_intersectionable, hB]
  have hfl : flatten_args [A, B] = [A, B] := by
    cases A <;> cases B <;>
      simp_all [flatten_args, PyType_Check, PyObj.same, PyObj.ident]
  have hga : _PyGenericAlias_Check B = false := by
    cases B <;> simp_all [PyType_Check, _PyGenericAlias_Check]
  simp [_Py_intersection_type_and, hAi, hBi, make_intersection, dedup_and_flatten_args, hfl,
    dedup_loop_cons, dedup_scan, is_duplicate, hga, hBA, dedup_loop]

theorem subclasscheck_loop_spec (h : Host) (cls : PyObj) (args : List PyObj)
    (hok : ∀ x ∈ args, PyType_Check x = true → 0 ≤ h.PyObject_IsSubclass cls x) :
    (subclasscheck_loop h cls args = .ok .Py_True ∧
      ∀ x ∈ args, PyType_Check x = true → h.PyObject_IsSubclass cls x ≠ 0) ∨
    (subclasscheck_loop h cls args = .ok .Py_False ∧
      ∃ x ∈ args, PyType_Check x = true ∧ h.PyObject_IsSubclass cls x = 0) := by
  induction args with
  | nil => left; simp [subclasscheck_loop]
  | cons a args ih =>
    have ih' := ih fun x hx => hok x (List.mem_cons_of_mem _ hx)
    simp only [subclasscheck_loop, List.mem_cons, forall_eq_or_imp, exists_eq_or_imp]
    by_cases ha : PyType_Check a = true
    · have h0 := hok a (List.mem_cons_self _ _) ha
      simp only [ha, if_true, not_lt.2 h0, if_false, true_and, forall_const]
      by_cases hz : h.PyObject_IsSubclass cls a = 0
      · right
        simp [hz]
      · rcases ih' with ⟨e, hall⟩ | ⟨e, hex⟩
        · left
          simp [hz, e]
          exact hall
        · right
          simp [hz, e]
          exact hex
    · rcases ih' with ⟨e, hall⟩ | ⟨e, hex⟩
      · left
        simp [ha, e]
        exact hall
      · right
        simp [ha, e]
        exact hex

theorem instancecheck_loop_spec (h : Host) (inst : PyObj) (args : List PyObj)
    (hok : ∀ x ∈ args, PyType_Check x = true → 0 ≤ h.PyObject_IsInstance inst x) :
    (instancecheck_loop h inst args = .ok .Py_True ∧
      ∃ x ∈ args, PyType_Check x = true ∧ h.PyObject_IsInstance inst x ≠ 0) ∨
    (instancecheck_loop h inst args = .ok .Py_False ∧
      ∀ x ∈ args, PyType_Check x = true → h.PyObject_IsInstance inst x = 0) := by
  induction args with
  | nil => right; simp [instancecheck_loop]
  | cons a args ih =>
    have ih' := ih fun x hx => hok x (List.mem_cons_of_mem _ hx)
    simp only [instancecheck_loop, List.mem_cons, forall_eq_or_imp, exists_eq_or_imp]
    by_cases ha : PyType_Check a = true
    · have h0 := hok a (List.mem_cons_self _ _) ha
      simp only [ha, if_true, not_lt.2 h0, if_false, true_and, forall_const]
      by_cases hz : h.PyObject_IsInstance inst a = 0
      · rcases ih' with ⟨e, hex⟩ | ⟨e, hall⟩
        · left
          simp [hz, e]
          exact hex
        · right
          simp [hz, e]
          exact hall
      · left
        simp [hz]
    · rcases ih' with ⟨e, hex⟩ | ⟨e, hall⟩
      · left
        simp [ha, e]
        exact hex
      · right
        simp [ha, e]
        exact hall

/-- C8 (subclass AND law), as the code has it.  For an intersection object
without a generic alias among its operands and a candidate that is a class, when
`PyObject_IsSubclass` does not fail on the class operands,
`intersection_subclasscheck` returns `True` or `False`, and `True` exactly when
the candidate is a subclass of every operand that passes `PyType_Check`: every
class, the none marker `_PyNone_Type` being one of them.  So for two distinct
classes `A`, `B` and a candidate that is a subclass of `A`: `A & B` accepts it
when it is a subclass of `B` too, and rejects it when it is not a subclass of
`B`; and an intersection object holding the none marker rejects every candidate
that is not a subclass of `_PyNone_Type`. -/
theorem subclass_and_law (h : Host) (addr : Nat) (args : List PyObj)
    (params : Option (List PyObj)) (cls : PyObj)
    (hno : ∀ x ∈ args, _PyGenericAlias_Check x = false)
    (hcls : PyType_Check cls = true)
    (hok : ∀ x ∈ args, PyType_Check x = true → 0 ≤ h.PyObject_IsSubclass cls x) :
    (intersection_subclasscheck h (.Intersection addr args params) cls = .ok .Py_True ∨
      intersection_subclasscheck h (.Intersection addr args params) cls = .ok .Py_False) ∧
    (intersection_subclasscheck h (.Intersection addr args params) cls = .ok .Py_True ↔
      ∀ x ∈ args, PyType_Check x = true → h.PyObject_IsSubclass cls x ≠ 0) ∧
    (∀ (a : Nat) (A B : PyObj), PyType_Check A = true → PyType_Check B = true →
      A.same B = false → 0 < h.PyObject_IsSubclass cls A →
      ∃ v, _Py_intersection_type_and h a A B = .ok v ∧ _PyIntersection_Check v = true ∧
        (0 < h.PyObject_IsSubclass cls B →
          intersection_subclasscheck h v cls = .ok .Py_True) ∧
        (h.PyObject_IsSubclass cls B = 0 →
          intersection_subclasscheck h v cls = .ok .Py_False)) ∧
    (PyObj.PyNone_Type ∈ args → h.PyObject_IsSubclass cls .PyNone_Type = 0 →
      intersection_subclasscheck h (.Intersection addr args params) cls =
        .ok .Py_False) := by
  have hg : ¬ is_generic_alias_in_args args = 0 := by
    rw [is_generic_alias_in_args_eq_zero_iff]
    rintro ⟨x, hx, hgx⟩
    rw [hno x hx] at hgx
    cases hgx
  have hdef : intersection_subclasscheck h (.Intersection addr args params) cls =
      subclasscheck_loop h cls args := by
    simp [intersection_subclasscheck, hcls, PyObj.args, hg]
  rw [hdef]
  refine ⟨?_, ?_, ?_, ?_⟩
  rotate_left 3
  · intro hmem h0
    rcases subclasscheck_loop_spec h cls args hok with ⟨_, hall⟩ | ⟨e, _⟩
    · exact absurd h0 (hall _ hmem rfl)
    · exact e
  · rcases subclasscheck_loop_spec h cls args hok with ⟨e, _⟩ | ⟨e, _⟩
    · exact Or.inl e
    · exact Or.inr e
  · rcases subclasscheck_loop_spec h cls args hok with ⟨e, hall⟩ | ⟨e, x, hx, hxc, hx0⟩
    · exact ⟨fun _ => hall, fun _ => e⟩
    · constructor
      · intro e'
        rw [e] at e'
        cases e'
      · intro hall
        exact absurd hx0 (hall x hx hxc)
  · intro a A B hA hB hAB hsubA
    refine ⟨_, type_and_two_classes h a hA hB hAB, rfl, ?_, ?_⟩
    · intro hsubB
      have h1 : ¬ h.PyObject_IsSubclass cls A < 0 := by omega
      have h2 : ¬ h.PyObject_IsSubclass cls A = 0 := by omega
      have h3 : ¬ h.PyObject_IsSubclass cls B < 0 := by omega
      have h4 : ¬ h.PyObject_IsSubclass cls B = 0 := by omega
      simp [intersection_subclasscheck, hcls, PyObj.args, is_generic_alias_in_args,
        subclasscheck_loop, hA, hB, type_not_generic_alias hA, type_not_generic_alias hB,
        h1, h2, h3, h4]
    · intro hsubB
      have h1 : ¬ h.PyObject_IsSubclass cls A < 0 := by omega
      have h2 : ¬ h.PyObject_IsSubclass cls A = 0 := by omega
      simp [intersection_subclasscheck, hcls, PyObj.args, is_generic_alias_in_args,
        subclasscheck_loop, hA, hB, type_not_generic_alias hA, type_not_generic_alias hB,
        h1, h2, hsubB]

theorem subclass_and_law_witness :
    (∀ x ∈ [PyObj.type 1, .PyNone_Type], _PyGenericAlias_Check x = false) ∧
    PyType_Check (.type 3) = true ∧
    (∀ x ∈ [PyObj.type 1, .PyNone_Type], PyType_Check x = true →
      0 ≤ narrow_host.PyObject_IsSubclass (.type 3) x) ∧
    intersection_subclasscheck narrow_host
      (.Intersection 9 [.type 1, .PyNone_Type] none) (.type 3) = .ok .Py_False ∧
    (intersection_subclasscheck narrow_host
        (.Intersection 9 [.type 1, .PyNone_Type] none) (.type 3) = .ok .Py_True ↔
      ∀ x ∈ [PyObj.type 1, .PyNone_Type], PyType_Check x = true →
        narrow_host.PyObject_IsSubclass (.type 3) x ≠ 0) :=
  have hno : ∀ x ∈ [PyObj.type 1, .PyNone_Type], _PyGenericAlias_Check x = false := by
    intro x hx
    simp only [List.mem_cons, List.mem_singleton, List.not_mem_nil, or_false] at hx
    rcases hx with rfl | rfl <;> rfl
  have hok : ∀ x ∈ [PyObj.type 1, .PyNone_Type], PyType_Check x = true →
      0 ≤ narrow_host.PyObject_IsSubclass (.type 3) x := by
    intro x hx _
    simp only [List.mem_cons, List.mem_singleton, List.not_mem_nil, or_false] at hx
    rcases hx with rfl | rfl <;> decide
  ⟨hno, rfl, hok, rfl,
    (subclass_and_law narrow_host 9 [.type 1, .PyNone_Type] none (.type 3) hno rfl hok).2.1⟩

/-- C9 (instance OR law), as the code has it.  For an intersection object
without a generic alias among its operands and any candidate, when
`PyObject_IsInstance` does not fail on the class operands,
`intersection_instancecheck` returns `True` or `False`, and `True` exactly when
the candidate is an instance of at least one operand that passes
`PyType_Check`: a class, the none marker `_PyNone_Type` being one of them.  So
for two distinct classes `A`, `B` and a candidate that is an instance of `A` and
not of `B`, `A & B` accepts it; and an intersection object holding the none
marker accepts every candidate that is an instance of `_PyNone_Type`. -/
theorem instance_or_law (h : Host) (addr : Nat) (args : List PyObj)
    (params : Option (List PyObj)) (inst : PyObj)
    (hno : ∀ x ∈ args, _PyGenericAlias_Check x = false)
    (hok : ∀ x ∈ args, PyType_Check x = true → 0 ≤ h.PyObject_IsInstance inst x) :
    (intersection_instancecheck h (.Intersection addr args params) inst = .ok .Py_True ∨
      intersection_instancecheck h (.Intersection addr args params) inst = .ok .Py_False) ∧
    (intersection_instancecheck h (.Intersection addr args params) inst = .ok .Py_True ↔
      ∃ x ∈ args, PyType_Check x = true ∧ h.PyObject_IsInstance inst x ≠ 0) ∧
    (∀ (a : Nat) (A B : PyObj), PyType_Check A = true → PyType_Check B = true →
      A.same B = false → 0 < h.PyObject_IsInstance inst A →
      h.PyObject_IsInstance inst B = 0 →
      ∃ v, _Py_intersection_type_and h a A B = .ok v ∧ _PyIntersection_Check v = true ∧
        intersection_instancecheck h v inst = .ok .Py_True) ∧
    (PyObj.PyNone_Type ∈ args → h.PyObject_IsInstance inst .PyNone_Type ≠ 0 →
      intersection_instancecheck h (.Intersection addr args params) inst =
        .ok .Py_True) := by
  have hg : ¬ is_generic_alias_in_args args = 0 := by
    rw [is_generic_alias_in_args_eq_zero_iff]
    rintro ⟨x, hx, hgx⟩
    rw [hno x hx] at hgx
    cases hgx
  have hdef : intersection_instancecheck h (.Intersection addr args params) inst =
      instancecheck_loop h inst args := by
    simp [intersection_instancecheck, PyObj.args, hg]
  rw [hdef]
  refine ⟨?_, ?_, ?_, ?_⟩
  rotate_left 3
  · intro hmem hne
    rcases instancecheck_loop_spec h inst args hok with ⟨e, _⟩ | ⟨_, hall⟩
    · exact e
    · exact absurd (hall _ hmem rfl) hne
  · rcases instancecheck_loop_spec h inst args hok with ⟨e, _⟩ | ⟨e, _⟩
    · exact Or.inl e
    · exact Or.inr e
  · rcases instancecheck_loop_spec h inst args hok with ⟨e, hex⟩ | ⟨e, hall⟩
    · exact ⟨fun _ => hex, fun _ => e⟩
    · constructor
      · intro e'
        rw [e] at e'
        cases e'
      · rintro ⟨x, hx, hxc, hx0⟩
        exact absurd (hall x hx hxc) hx0
  · intro a A B hA hB hAB hinA _
    refine ⟨_, type_and_two_classes h a hA hB hAB, rfl, ?_⟩
    have h1 : ¬ h.PyObject_IsInstance inst A < 0 := by omega
    have h2 : ¬ h.PyObject_IsInstance inst A = 0 := by omega
    simp [intersection_instancecheck, PyObj.args, is_generic_alias_in_args,
      instancecheck_loop, hA, type_not_generic_alias hA, type_not_generic_alias hB, h1, h2]

theorem instance_or_law_witness :
    (∀ x ∈ [PyObj.type 2, .type 1], _PyGenericAlias_Check x = false) ∧
    (∀ x ∈ [PyObj.type 2, .type 1], PyType_Check x = true →
      0 ≤ narrow_host.PyObject_IsInstance (.object 7) x) ∧
    intersection_instancecheck narrow_host
      (.Intersection 9 [.type 2, .type 1] none) (.object 7) = .ok .Py_True ∧
    (intersection_instancecheck narrow_host
        (.Intersection 9 [.type 2, .type 1] none) (.object 7) = .ok .Py_True ↔
      ∃ x ∈ [PyObj.type 2, .type 1], PyType_Check x = true ∧
        narrow_host.PyObject_IsInstance (.object 7) x ≠ 0) :=
  have hno : ∀ x ∈ [PyObj.type 2, .type 1], _PyGenericAlias_Check x = false := by
    intro x hx
    simp only [List.mem_cons, List.mem_singleton, List.not_mem_nil, or_false] at hx
    rcases hx with rfl | rfl <;> rfl
  have hok : ∀ x ∈ [PyObj.type 2, .type 1], PyType_Check x = true →
      0 ≤ narrow_host.PyObject_IsInstance (.object 7) x := by
    intro x hx _
    simp only [List.mem_cons, List.mem_singleton, List.not_mem_nil, or_false] at hx
    rcases hx with rfl | rfl <;> decide
  ⟨hno, hok, rfl,
    (instance_or_law narrow_host 9 [.type 2, .type 1] none (.object 7) hno hok).2.1⟩

theorem instancecheck_loop_no_typeerror (h : Host) (inst : PyObj) (args : List PyObj)
    (msg : String) : instancecheck_loop h inst args ≠ .error (.TypeError msg) := by
  induction args with
  | nil => simp [instancecheck_loop]
  | cons a args ih =>
    simp only [instancecheck_loop]
    split_ifs <;> first | exact ih | simp

/-- C10.  When some operand of the intersection object is a generic alias,
`intersection_instancecheck` raises its `TypeError` whatever the candidate and
whatever the other operands (a class placed before the generic alias is not
consulted); when no operand is a generic alias, it raises no `TypeError` of its
own. -/
theorem instancecheck_generic_alias (h : Host) (addr : Nat) (args : List PyObj)
    (params : Option (List PyObj)) (inst : PyObj) :
    ((∃ x ∈ args, _PyGenericAlias_Check x = true) →
      intersection_instancecheck h (.Intersection addr args params) inst =
        .error (.TypeError
          "isinstance() argument 2 cannot contain a parameterized generic")) ∧
    ((∀ x ∈ args, _PyGenericAlias_Check x = false) →
      ∀ msg, intersection_instancecheck h (.Intersection addr args params) inst ≠
        .error (.TypeError msg)) := by
  constructor
  · intro hex
    have hg := (is_generic_alias_in_args_eq_zero_iff args).2 hex
    simp [intersection_instancecheck, PyObj.args, hg]
  · intro hno msg
    have hg : ¬ is_generic_alias_in_args args = 0 := by
      rw [is_generic_alias_in_args_eq_zero_iff]
      rintro ⟨x, hx, hgx⟩
      rw [hno x hx] at hgx
      cases hgx
    simp only [intersection_instancecheck, PyObj.args, hg, if_false]
    exact instancecheck_loop_no_typeerror h inst args msg

theorem instancecheck_generic_alias_witness :
    (∃ x ∈ [PyObj.type 1, .GenericAlias 2], _PyGenericAlias_Check x = true) ∧
    0 < generous_host.PyObject_IsInstance (.object 7) (.type 1) ∧
    intersection_instancecheck generous_host
      (.Intersection 9 [.type 1, .GenericAlias 2] none) (.object 7) =
        .error (.TypeError
          "isinstance() argument 2 cannot contain a parameterized generic") :=
  have hex : ∃ x ∈ [PyObj.type 1, .GenericAlias 2], _PyGenericAlias_Check x = true :=
    ⟨.GenericAlias 2, by simp, rfl⟩
  ⟨hex, by decide,
    (instancecheck_generic_alias generous_host 9 [.type 1, .GenericAlias 2] none
      (.object 7)).1 hex⟩

/-! ## Equality -/

theorem richcomparebool_self (h : Host) (x : PyObj) : PyObject_RichCompareBool h x x = 1 := by
  simp [PyObject_RichCompareBool, PyObj.same_refl]

theorem set_contains_spec {h : Host} {U : List PyObj} (hw : SetFriendly h U)
    {key : PyObj} (hk : key ∈ U) {s : List PyObj} (hs : ∀ e ∈ s, e ∈ U) :
    (set_contains h key s = 1 ∧ ∃ e ∈ s, PyObject_RichCompareBool h e key ≠ 0) ∨
    (set_contains h key s = 0 ∧ ∀ e ∈ s, PyObject_RichCompareBool h e key = 0) := by
  induction s with
  | nil => right; simp [set_contains]
  | cons e s ih =>
    have heU : e ∈ U := hs e (List.mem_cons_self _ _)
    have ih' := ih fun x hx => hs x (List.mem_cons_of_mem _ hx)
    have h0 := hw.no_failure e heU key hk
    simp only [set_contains, List.mem_cons, exists_eq_or_imp, forall_eq_or_imp]
    by_cases hh : h.PyObject_Hash e = h.PyObject_Hash key
    · by_cases hc : PyObject_RichCompareBool h e key = 0
      · simp only [hh, if_true, hc, lt_self_iff_false, if_false, ne_eq, not_true_eq_false,
          false_or, true_and]
        exact ih'
      · left
        have hpos : PyObject_RichCompareBool h e key > 0 := by omega
        simp [hh, not_lt.2 h0, hpos, hc]
    · have hc : PyObject_RichCompareBool h e key = 0 := by
        by_contra hne
        exact hh (hw.same_hash e heU key hk hne)
      simp only [hh, if_false, hc, ne_eq, not_true_eq_false, false_or, true_and]
      exact ih'

theorem set_update_spec {h : Host} {U : List PyObj} (hw : SetFriendly h U)
    {xs s : List PyObj} (hxs : ∀ x ∈ xs, x ∈ U) (hs : ∀ e ∈ s, e ∈ U)
    (hp : s.Pairwise fun e l => PyObject_RichCompareBool h e l = 0) :
    ∃ out, set_update h xs s = .ok out ∧ (∀ e ∈ out, e ∈ s ∨ e ∈ xs) ∧
      (∀ x, x ∈ s ∨ x ∈ xs → ∃ e ∈ out, PyObject_RichCompareBool h e x ≠ 0) ∧
      out.Pairwise fun e l => PyObject_RichCompareBool h e l = 0 := by
  induction xs generalizing s with
  | nil =>
    refine ⟨s, rfl, fun e he => Or.inl he, ?_, hp⟩
    intro x hx
    rcases hx with hx | hx
    · exact ⟨x, hx, by simp [richcomparebool_self]⟩
    · simp at hx
  | cons x xs ih =>
    have hxU : x ∈ U := hxs x (List.mem_cons_self _ _)
    have hxs' : ∀ y ∈ xs, y ∈ U := fun y hy => hxs y (List.mem_cons_of_mem _ hy)
    have hhash := hw.hashable x hxU
    simp only [set_update, hhash, if_false]
    rcases set_contains_spec hw hxU hs with ⟨e1, e, he, hE⟩ | ⟨e0, hall⟩
    · obtain ⟨out, ho, hsub, hcov, hpw⟩ := ih hxs' hs hp
      refine ⟨out, ?_, ?_, ?_, hpw⟩
      · simp [e1, ho]
      · intro y hy
        rcases hsub y hy with hm | hm
        · exact Or.inl hm
        · exact Or.inr (List.mem_cons_of_mem _ hm)
      · intro y hy
        rcases hy with hy | hy
        · exact hcov y (Or.inl hy)
        · rcases List.mem_cons.1 hy with rfl | hy
          · obtain ⟨e', he', hE'⟩ := hcov e (Or.inl he)
            have he'U : e' ∈ U := by
              rcases hsub e' he' with hm | hm
              · exact hs e' hm
              · exact hxs' e' hm
            exact ⟨e', he', hw.transitive e' he'U e (hs e he) y hxU hE' hE⟩
          · exact hcov y (Or.inr hy)
    · have hs' : ∀ e ∈ s ++ [x], e ∈ U := by
        intro e he
        rcases List.mem_append.1 he with hm | hm
        · exact hs e hm
        · rw [List.mem_singleton.1 hm]
          exact hxU
      have hp' : (s ++ [x]).Pairwise fun e l => PyObject_RichCompareBool h e l = 0 := by
        rw [List.pairwise_append]
        refine ⟨hp, List.pairwise_singleton _ _, ?_⟩
        intro a ha b hb
        rw [List.mem_singleton.1 hb]
        exact hall a ha
      obtain ⟨out, ho, hsub, hcov, hpw⟩ := ih hxs' hs' hp'
      refine ⟨out, ?_, ?_, ?_, hpw⟩
      · simp [e0, ho]
      · intro y hy
        rcases hsub y hy with hm | hm
        · rcases List.mem_append.1 hm with hm | hm
          · exact Or.inl hm
          · right
            rw [List.mem_singleton.1 hm]
            exact List.mem_cons_self _ _
        · exact Or.inr (List.mem_cons_of_mem _ hm)
      · intro y hy
        rcases hy with hy | hy
        · exact hcov y (Or.inl (List.mem_append_left _ hy))
        · rcases List.mem_cons.1 hy with rfl | hy
          · exact hcov y (Or.inl (List.mem_append_right _ (List.mem_singleton_self _)))
          · exact hcov y (Or.inr hy)

theorem set_issubset_spec {h : Host} {U : List PyObj} (hw : SetFriendly h U)
    {v w : List PyObj} (hv : ∀ e ∈ v, e ∈ U) (hwU : ∀ e ∈ w, e ∈ U) :
    (set_issubset h w v = .ok .Py_True ∧
      ∀ e ∈ v, ∃ e' ∈ w, PyObject_RichCompareBool h e' e ≠ 0) ∨
    (set_issubset h w v = .ok .Py_False ∧
      ∃ e ∈ v, ∀ e' ∈ w, PyObject_RichCompareBool h e' e = 0) := by
  induction v with
  | nil => left; simp [set_issubset]
  | cons e v ih =>
    have ih' := ih fun x hx => hv x (List.mem_cons_of_mem _ hx)
    simp only [set_issubset, List.mem_cons, forall_eq_or_imp, exists_eq_or_imp]
    rcases set_contains_spec hw (hv e (List.mem_cons_self _ _)) hwU with
      ⟨e1, hex⟩ | ⟨e0, hall⟩
    · rcases ih' with ⟨r, hr⟩ | ⟨r, hr⟩
      · left
        simp only [e1, r]
        exact ⟨by simp, hex, hr⟩
      · right
        simp only [e1, r]
        exact ⟨by simp, Or.inr hr⟩
    · right
      simp only [e0]
      exact ⟨by simp, Or.inl hall⟩

/-- A list of pairwise unequal entries that is covered by another list is no
longer than it, and when the lengths agree the cover goes both ways. -/
theorem set_pigeonhole {h : Host} {U : List PyObj} (hw : SetFriendly h U) :
    ∀ (sx sy : List PyObj), (∀ e ∈ sx, e ∈ U) → (∀ e ∈ sy, e ∈ U) →
      (sx.Pairwise fun e l => PyObject_RichCompareBool h e l = 0) →
      (∀ x ∈ sx, ∃ y ∈ sy, PyObject_RichCompareBool h y x ≠ 0) →
      sx.length ≤ sy.length ∧
        (sx.length = sy.length →
          ∀ y ∈ sy, ∃ x ∈ sx, PyObject_RichCompareBool h x y ≠ 0) := by
  intro sx
  induction sx with
  | nil =>
    intro sy _ _ _ _
    refine ⟨Nat.zero_le _, ?_⟩
    intro hlen y hy
    have : sy = [] := List.length_eq_zero.1 hlen.symm
    subst this
    simp at hy
  | cons e sx ih =>
    intro sy hsx hsy hp hcov
    have heU : e ∈ U := hsx e (List.mem_cons_self _ _)
    obtain ⟨y0, hy0, hE0⟩ := hcov e (List.mem_cons_self _ _)
    have hy0U : y0 ∈ U := hsy y0 hy0
    obtain ⟨l1, l2, rfl⟩ := List.append_of_mem hy0
    rw [List.pairwise_cons] at hp
    have hsy' : ∀ z ∈ l1 ++ l2, z ∈ U := by
      intro z hz
      apply hsy
      rcases List.mem_append.1 hz with hm | hm
      · exact List.mem_append_left _ hm
      · exact List.mem_append_right _ (List.mem_cons_of_mem _ hm)
    have hcov' : ∀ x ∈ sx, ∃ y ∈ l1 ++ l2, PyObject_RichCompareBool h y x ≠ 0 := by
      intro x hx
      have hxU : x ∈ U := hsx x (List.mem_cons_of_mem _ hx)
      obtain ⟨y, hy, hE⟩ := hcov x (List.mem_cons_of_mem _ hx)
      rcases List.mem_append.1 hy with hm | hm
      · exact ⟨y, List.mem_append_left _ hm, hE⟩
      · rcases List.mem_cons.1 hm with rfl | hm
        · exfalso
          have h1 := hw.symmetric y hy0U e heU hE0
          exact hw.transitive e heU y hy0U x hxU h1 hE (hp.1 x hx)
        · exact ⟨y, List.mem_append_right _ hm, hE⟩
    obtain ⟨hle, heq⟩ := ih (l1 ++ l2)
      (fun z hz => hsx z (List.mem_cons_of_mem _ hz)) hsy' hp.2 hcov'
    simp only [List.length_append, List.length_cons] at hle ⊢
    refine ⟨by omega, ?_⟩
    intro hlen y hy
    have hlen' : sx.length = (l1 ++ l2).length := by
      simp only [List.length_append]
      omega
    have back := heq hlen'
    rcases List.mem_append.1 hy with hm | hm
    · obtain ⟨x, hx, hE⟩ := back y (List.mem_append_left _ hm)
      exact ⟨x, List.mem_cons_of_mem _ hx, hE⟩
    · rcases List.mem_cons.1 hm with rfl | hm
      · exact ⟨e, List.mem_cons_self _ _, hw.symmetric y hy0U e heU hE0⟩
      · obtain ⟨x, hx, hE⟩ := back y (List.mem_append_right _ hm)
        exact ⟨x, List.mem_cons_of_mem _ hx, hE⟩

/-- Equality of two intersection objects whose operands the host can keep in
sets: `True` when each operand of either is equal to an operand of the other,
`False` otherwise. -/
theorem richcompare_eq_spec {h : Host} (a b : Nat) (xs ys : List PyObj)
    (p q : Option (List PyObj)) (hw : SetFriendly h (xs ++ ys)) :
    (intersection_richcompare h (.Intersection a xs p) (.Intersection b ys q) Py_EQ =
        .ok .Py_True ∧
      ((∀ x ∈ xs, ∃ y ∈ ys, PyObject_RichCompareBool h x y ≠ 0) ∧
        (∀ y ∈ ys, ∃ x ∈ xs, PyObject_RichCompareBool h y x ≠ 0))) ∨
    (intersection_richcompare h (.Intersection a xs p) (.Intersection b ys q) Py_EQ =
        .ok .Py_False ∧
      ¬ ((∀ x ∈ xs, ∃ y ∈ ys, PyObject_RichCompareBool h x y ≠ 0) ∧
        (∀ y ∈ ys, ∃ x ∈ xs, PyObject_RichCompareBool h y x ≠ 0))) := by
  have hxU : ∀ x ∈ xs, x ∈ xs ++ ys := fun x hx => List.mem_append_left _ hx
  have hyU : ∀ y ∈ ys, y ∈ xs ++ ys := fun y hy => List.mem_append_right _ hy
  obtain ⟨sx, hsx, hsubx, hcovx, hpx⟩ :=
    @set_update_spec h _ hw _ [] hxU (by simp) List.Pairwise.nil
  obtain ⟨sy, hsy, hsuby, hcovy, hpy⟩ :=
    @set_update_spec h _ hw _ [] hyU (by simp) List.Pairwise.nil
  have hsxU : ∀ e ∈ sx, e ∈ xs ++ ys := by
    intro e he
    rcases hsubx e he with hm | hm
    · simp at hm
    · exact hxU e hm
  have hsyU : ∀ e ∈ sy, e ∈ xs ++ ys := by
    intro e he
    rcases hsuby e he with hm | hm
    · simp at hm
    · exact hyU e hm
  have hsxs : ∀ e ∈ sx, e ∈ xs := by
    intro e he
    rcases hsubx e he with hm | hm
    · simp at hm
    · exact hm
  have hsys : ∀ e ∈ sy, e ∈ ys := by
    intro e he
    rcases hsuby e he with hm | hm
    · simp at hm
    · exact hm
  have hdef : intersection_richcompare h (.Intersection a xs p) (.Intersection b ys q)
      Py_EQ = if sx.length ≠ sy.length then .ok .Py_False else set_issubset h sy sx := by
    simp only [intersection_richcompare, _PyIntersection_Check, PyObj.args, PySet_New, hsx,
      hsy, set_richcompare]
    simp
  -- the sets cover each other whenever the operand sequences do
  have down : ((∀ x ∈ xs, ∃ y ∈ ys, PyObject_RichCompareBool h x y ≠ 0) ∧
      (∀ y ∈ ys, ∃ x ∈ xs, PyObject_RichCompareBool h y x ≠ 0)) →
      (∀ e ∈ sx, ∃ e' ∈ sy, PyObject_RichCompareBool h e' e ≠ 0) ∧
      (∀ e ∈ sy, ∃ e' ∈ sx, PyObject_RichCompareBool h e' e ≠ 0) := by
    rintro ⟨hxy, hyx⟩
    constructor
    · intro e he
      obtain ⟨y, hy, hE⟩ := hxy e (hsxs e he)
      obtain ⟨e', he', hE'⟩ := hcovy y (Or.inr hy)
      exact ⟨e', he', hw.transitive e' (hsyU e' he') y (hyU y hy) e (hsxU e he) hE'
        (hw.symmetric e (hsxU e he) y (hyU y hy) hE)⟩
    · intro e he
      obtain ⟨x, hx, hE⟩ := hyx e (hsys e he)
      obtain ⟨e', he', hE'⟩ := hcovx x (Or.inr hx)
      exact ⟨e', he', hw.transitive e' (hsxU e' he') x (hxU x hx) e (hsyU e he) hE'
        (hw.symmetric e (hsyU e he) x (hxU x hx) hE)⟩
  have up : (∀ e ∈ sx, ∃ e' ∈ sy, PyObject_RichCompareBool h e' e ≠ 0) →
      (∀ e ∈ sy, ∃ e' ∈ sx, PyObject_RichCompareBool h e' e ≠ 0) →
      ((∀ x ∈ xs, ∃ y ∈ ys, PyObject_RichCompareBool h x y ≠ 0) ∧
        (∀ y ∈ ys, ∃ x ∈ xs, PyObject_RichCompareBool h y x ≠ 0)) := by
    intro h1 h2
    constructor
    · intro x hx
      obtain ⟨e, he, hE⟩ := hcovx x (Or.inr hx)
      obtain ⟨e', he', hE'⟩ := h1 e he
      exact ⟨e', hsys e' he', hw.symmetric e' (hsyU e' he') x (hxU x hx)
        (hw.transitive e' (hsyU e' he') e (hsxU e he) x (hxU x hx) hE' hE)⟩
    · intro y hy
      obtain ⟨e, he, hE⟩ := hcovy y (Or.inr hy)
      obtain ⟨e', he', hE'⟩ := h2 e he
      exact ⟨e', hsxs e' he', hw.symmetric e' (hsxU e' he') y (hyU y hy)
        (hw.transitive e' (hsxU e' he') e (hsyU e he) y (hyU y hy) hE' hE)⟩
  rw [hdef]
  by_cases hlen : sx.length = sy.length
  · simp only [hlen, ne_eq, not_true_eq_false, if_false]
    rcases set_issubset_spec hw hsxU hsyU with ⟨r, hall⟩ | ⟨r, e, he, hnone⟩
    · left
      exact ⟨r, up hall ((set_pigeonhole hw sx sy hsxU hsyU hpx hall).2 hlen)⟩
    · right
      refine ⟨r, ?_⟩
      intro hm
      obtain ⟨e', he', hE'⟩ := (down hm).1 e he
      exact hE' (hnone e' he')
  · right
    simp only [ne_eq, hlen, not_false_eq_true, if_true, true_and]
    intro hm
    obtain ⟨d1, d2⟩ := down hm
    have l1 := (set_pigeonhole hw sx sy hsxU hsyU hpx d1).1
    have l2 := (set_pigeonhole hw sy sx hsyU hsxU hpy d2).1
    omega

theorem is_duplicate_of_unequal (h : Host) {x y : PyObj}
    (hxy : PyObject_RichCompareBool h x y = 0) : is_duplicate h x y = 0 := by
  have hs : x.same y = false := by
    by_contra hne
    have hs : x.same y = true := by simpa using hne
    simp [PyObject_RichCompareBool, hs] at hxy
  unfold is_duplicate
  simp only [hxy, hs]
  simp

theorem type_and_two_operands (h : Host) (addr : Nat) {A B : PyObj}
    (hA : is_intersectionable A = true) (hB : is_intersectionable B = true)
    (hAn : _PyIntersection_Check A = false) (hBn : _PyIntersection_Check B = false)
    (hdup : is_duplicate h (stored_operand B) (stored_operand A) = 0) :
    _Py_intersection_type_and h addr A B =
      .ok (.Intersection addr [stored_operand A, stored_operand B] none) := by
  have hfl : flatten_args [A, B] = [stored_operand A, stored_operand B] := by
    simp [flatten_args_cons, hAn, hBn, flatten_args, stored_operand]
  simp [_Py_intersection_type_and, hA, hB, make_intersection, dedup_and_flatten_args, hfl,
    dedup_loop_cons, dedup_scan, hdup, dedup_loop]

theorem setFriendly_pair (h : Host) {x y : PyObj}
    (hx : h.PyObject_Hash x ≠ -1) (hy : h.PyObject_Hash y ≠ -1)
    (hxy : PyObject_RichCompareBool h x y = 0) (hyx : PyObject_RichCompareBool h y x = 0) :
    SetFriendly h ([x, y] ++ [y, x]) := by
  have hxx := richcomparebool_self h x
  have hyy := richcomparebool_self h y
  have mem : ∀ u, u ∈ [x, y] ++ [y, x] → u = x ∨ u = y := by
    intro u hu
    simp only [List.cons_append, List.nil_append, List.mem_cons, List.mem_singleton,
      List.not_mem_nil, or_false] at hu
    tauto
  constructor
  · intro u hu
    rcases mem u hu with rfl | rfl <;> assumption
  · intro u hu v hv
    rcases mem u hu with rfl | rfl <;> rcases mem v hv with rfl | rfl <;> omega
  · intro u hu v hv
    rcases mem u hu with rfl | rfl <;> rcases mem v hv with rfl | rfl <;> omega
  · intro u hu v hv w hw
    rcases mem u hu with rfl | rfl <;> rcases mem v hv with rfl | rfl <;>
      rcases mem w hw with rfl | rfl <;> omega
  · intro u hu v hv hne
    rcases mem u hu with rfl | rfl <;> rcases mem v hv with rfl | rfl <;>
      first | rfl | exact absurd hxy hne | exact absurd hyx hne

/-- C4 (order-insensitive equality).  For two operands `A`, `B` that are not
intersection objects, whose stored operands can be hashed and compare unequal
to each other, `A & B` and `B & A` are intersection objects that
`intersection_richcompare` reports equal.  More generally, for two intersection
objects whose operands the host can keep in sets (hashable, with a comparison
that does not fail and is an equivalence consistent with the hash), `==` is
`True` exactly when every operand of either is equal to an operand of the
other, and `False` otherwise. -/
theorem richcompare_order_insensitive (h : Host) (a1 a2 : Nat) (A B : PyObj)
    (hA : is_intersectionable A = true) (hB : is_intersectionable B = true)
    (hAn : _PyIntersection_Check A = false) (hBn : _PyIntersection_Check B = false)
    (hashA : h.PyObject_Hash (stored_operand A) ≠ -1)
    (hashB : h.PyObject_Hash (stored_operand B) ≠ -1)
    (hAB : PyObject_RichCompareBool h (stored_operand A) (stored_operand B) = 0)
    (hBA : PyObject_RichCompareBool h (stored_operand B) (stored_operand A) = 0) :
    (∃ u v, _Py_intersection_type_and h a1 A B = .ok u ∧
      _Py_intersection_type_and h a2 B A = .ok v ∧
      _PyIntersection_Check u = true ∧ _PyIntersection_Check v = true ∧
      intersection_richcompare h u v Py_EQ = .ok .Py_True) ∧
    (∀ (a b : Nat) (xs ys : List PyObj) (p q : Option (List PyObj)),
      SetFriendly h (xs ++ ys) →
      (intersection_richcompare h (.Intersection a xs p) (.Intersection b ys q) Py_EQ =
          .ok .Py_True ∨
        intersection_richcompare h (.Intersection a xs p) (.Intersection b ys q) Py_EQ =
          .ok .Py_False) ∧
      (intersection_richcompare h (.Intersection a xs p) (.Intersection b ys q) Py_EQ =
          .ok .Py_True ↔
        ((∀ x ∈ xs, ∃ y ∈ ys, PyObject_RichCompareBool h x y ≠ 0) ∧
          (∀ y ∈ ys, ∃ x ∈ xs, PyObject_RichCompareBool h y x ≠ 0)))) := by
  constructor
  · refine ⟨_, _, type_and_two_operands h a1 hA hB hAn hBn (is_duplicate_of_unequal h hBA),
      type_and_two_operands h a2 hB hA hBn hAn (is_duplicate_of_unequal h hAB), rfl, rfl, ?_⟩
    have hw := setFriendly_pair h hashA hashB hAB hBA
    rcases richcompare_eq_spec a1 a2 _ _ none none hw with ⟨r, _⟩ | ⟨_, hn⟩
    · exact r
    · exfalso
      apply hn
      constructor
      · intro x hx
        exact ⟨x, by simp only [List.mem_cons, List.mem_singleton, List.not_mem_nil,
          or_false] at hx ⊢; tauto, by simp [richcomparebool_self]⟩
      · intro y hy
        exact ⟨y, by simp only [List.mem_cons, List.mem_singleton, List.not_mem_nil,
          or_false] at hy ⊢; tauto, by simp [richcomparebool_self]⟩
  · intro a b xs ys p q hw
    rcases richcompare_eq_spec a b xs ys p q hw with ⟨r, hm⟩ | ⟨r, hn⟩
    · exact ⟨Or.inl r, fun _ => hm, fun _ => r⟩
    · refine ⟨Or.inr r, ?_, ?_⟩
      · intro r'
        rw [r] at r'
        cases r'
      · intro hm
        exact absurd hm hn

theorem richcompare_order_insensitive_witness :
    is_intersectionable (.type 1) = true ∧ is_intersectionable .Py_None = true ∧
    _PyIntersection_Check (.type 1) = false ∧ _PyIntersection_Check .Py_None = false ∧
    plain_host.PyObject_Hash (stored_operand (.type 1)) ≠ -1 ∧
    plain_host.PyObject_Hash (stored_operand .Py_None) ≠ -1 ∧
    PyObject_RichCompareBool plain_host (stored_operand (.type 1))
      (stored_operand .Py_None) = 0 ∧
    PyObject_RichCompareBool plain_host (stored_operand .Py_None)
      (stored_operand (.type 1)) = 0 ∧
    _Py_intersection_type_and plain_host 10 (.type 1) .Py_None =
      .ok (.Intersection 10 [.type 1, .PyNone_Type] none) ∧
    _Py_intersection_type_and plain_host 11 .Py_None (.type 1) =
      .ok (.Intersection 11 [.PyNone_Type, .type 1] none) ∧
    intersection_richcompare plain_host (.Intersection 10 [.type 1, .PyNone_Type] none)
      (.Intersection 11 [.PyNone_Type, .type 1] none) Py_EQ = .ok .Py_True ∧
    ∃ u v, _Py_intersection_type_and plain_host 10 (.type 1) .Py_None = .ok u ∧
      _Py_intersection_type_and plain_host 11 .Py_None (.type 1) = .ok v ∧
      _PyIntersection_Check u = true ∧ _PyIntersection_Check v = true ∧
      intersection_richcompare plain_host u v Py_EQ = .ok .Py_True :=
  ⟨rfl, rfl, rfl, rfl, by decide, by decide, rfl, rfl, rfl, rfl, rfl,
    (richcompare_order_insensitive plain_host 10 11 (.type 1) .Py_None rfl rfl rfl rfl
      (by decide) (by decide) rfl rfl).1⟩


/-! ## Subclass check: validation -/

theorem subclasscheck_loop_no_typeerror (h : Host) (inst : PyObj) (args : List PyObj)
    (msg : String) : subclasscheck_loop h inst args ≠ .error (.TypeError msg) := by
  induction args with
  | nil => simp [subclasscheck_loop]
  | cons a args ih =>
    simp only [subclasscheck_loop]
    split_ifs <;> first | exact ih | simp

/-- C11.  `intersection_subclasscheck` raises a `TypeError` exactly when the
candidate is not a class or some operand is a generic alias.  The test on the
candidate comes first: a candidate that is not a class is rejected with the
message about argument 1 for every intersection object, the one without
operands included; for a candidate that is a class, a generic alias among the
operands gives the message about argument 2; and when `PyObject_IsSubclass`
does not fail on the class operands and neither test fires, a boolean is
returned. -/
theorem subclasscheck_typeerror_iff (h : Host) (addr : Nat) (args : List PyObj)
    (params : Option (List PyObj)) (inst : PyObj) :
    ((∃ msg, intersection_subclasscheck h (.Intersection addr args params) inst =
        .error (.TypeError msg)) ↔
      (PyType_Check inst = false ∨ ∃ x ∈ args, _PyGenericAlias_Check x = true)) ∧
    (PyType_Check inst = false →
      intersection_subclasscheck h (.Intersection addr args params) inst =
          .error (.TypeError "issubclass() arg 1 must be a class") ∧
        intersection_subclasscheck h (.Intersection addr [] params) inst =
          .error (.TypeError "issubclass() arg 1 must be a class")) ∧
    (PyType_Check inst = true → (∃ x ∈ args, _PyGenericAlias_Check x = true) →
      intersection_subclasscheck h (.Intersection addr args params) inst =
        .error (.TypeError
          "issubclass() argument 2 cannot contain a parameterized generic")) ∧
    (PyType_Check inst = true → (∀ x ∈ args, _PyGenericAlias_Check x = false) →
      (∀ x ∈ args, PyType_Check x = true → 0 ≤ h.PyObject_IsSubclass inst x) →
      (intersection_subclasscheck h (.Intersection addr args params) inst = .ok .Py_True ∨
        intersection_subclasscheck h (.Intersection addr args params) inst =
          .ok .Py_False)) := by
  have hnot : PyType_Check inst = false →
      ∀ l, intersection_subclasscheck h (.Intersection addr l params) inst =
        .error (.TypeError "issubclass() arg 1 must be a class") := by
    intro hc l
    simp [intersection_subclasscheck, hc]
  have hgen : PyType_Check inst = true → (∃ x ∈ args, _PyGenericAlias_Check x = true) →
      intersection_subclasscheck h (.Intersection addr args params) inst =
        .error (.TypeError
          "issubclass() argument 2 cannot contain a parameterized generic") := by
    intro hc hex
    have hg := (is_generic_alias_in_args_eq_zero_iff args).2 hex
    simp [intersection_subclasscheck, hc, PyObj.args, hg]
  have hloop : PyType_Check inst = true → (¬ ∃ x ∈ args, _PyGenericAlias_Check x = true) →
      intersection_subclasscheck h (.Intersection addr args params) inst =
        subclasscheck_loop h inst args := by
    intro hc hno
    have hg : ¬ is_generic_alias_in_args args = 0 := by
      rw [is_generic_alias_in_args_eq_zero_iff]
      exact hno
    simp [intersection_subclasscheck, hc, PyObj.args, hg]
  refine ⟨⟨?_, ?_⟩, fun hc => ⟨hnot hc args, hnot hc []⟩, hgen, ?_⟩
  · rintro ⟨msg, hmsg⟩
    by_contra hcon
    have hc : PyType_Check inst = true := by
      by_contra hx
      exact hcon (Or.inl (by simpa using hx))
    have hno : ¬ ∃ x ∈ args, _PyGenericAlias_Check x = true := fun hex => hcon (Or.inr hex)
    rw [hloop hc hno] at hmsg
    exact subclasscheck_loop_no_typeerror h inst args msg hmsg
  · rintro (hc | hex)
    · exact ⟨_, hnot hc args⟩
    · by_cases hc : PyType_Check inst = true
      · exact ⟨_, hgen hc hex⟩
      · exact ⟨_, hnot (by simpa using hc) args⟩
  · intro hc hno hok
    have hno' : ¬ ∃ x ∈ args, _PyGenericAlias_Check x = true := by
      rintro ⟨x, hx, hgx⟩
      rw [hno x hx] at hgx
      cases hgx
    rw [hloop hc hno']
    rcases subclasscheck_loop_spec h inst args hok with ⟨e, _⟩ | ⟨e, _⟩
    · exact Or.inl e
    · exact Or.inr e

theorem subclasscheck_typeerror_iff_witness :
    PyType_Check (.object 7) = false ∧
    intersection_subclasscheck generous_host
      (.Intersection 9 [.type 1, .GenericAlias 2] none) (.object 7) =
        .error (.TypeError "issubclass() arg 1 must be a class") ∧
    intersection_subclasscheck generous_host (.Intersection 9 [] none) (.object 7) =
      .error (.TypeError "issubclass() arg 1 must be a class") ∧
    PyType_Check (.type 3) = true ∧
    (∃ x ∈ [PyObj.type 1, .GenericAlias 2], _PyGenericAlias_Check x = true) ∧
    intersection_subclasscheck generous_host
      (.Intersection 9 [.type 1, .GenericAlias 2] none) (.type 3) =
        .error (.TypeError
          "issubclass() argument 2 cannot contain a parameterized generic") :=
  have key := subclasscheck_typeerror_iff generous_host 9 [.type 1, .GenericAlias 2] none
  have hex : ∃ x ∈ [PyObj.type 1, .GenericAlias 2], _PyGenericAlias_Check x = true :=
    ⟨.GenericAlias 2, by simp, rfl⟩
  ⟨rfl, ((key (.object 7)).2.1 rfl).1, ((key (.object 7)).2.1 rfl).2, rfl, hex,
    (key (.type 3)).2.2.1 rfl hex⟩

/-! ## The none marker in the instance check -/

theorem same_none_type_iff (x : PyObj) : x.same .PyNone_Type = true ↔ x = .PyNone_Type := by
  cases x <;> constructor <;> intro hh <;>
    first
    | rfl
    | cases hh

theorem is_generic_alias_in_args_filter_none (args : List PyObj) :
    is_generic_alias_in_args (args.filter fun x => !x.same .PyNone_Type) =
      is_generic_alias_in_args args := by
  induction args with
  | nil => rfl
  | cons a args ih =>
    by_cases ha : a.same .PyNone_Type = true
    · have : a = .PyNone_Type := (same_none_type_iff a).1 ha
      subst this
      simp [List.filter, PyObj.same_refl, is_generic_alias_in_args, _PyGenericAlias_Check, ih]
    · have ha' : a.same .PyNone_Type = false := by simpa using ha
      simp [List.filter, ha', is_generic_alias_in_args, ih]

theorem instancecheck_loop_filter_none (h : Host) (inst : PyObj) (args : List PyObj)
    (h0 : h.PyObject_IsInstance inst .PyNone_Type = 0) :
    instancecheck_loop h inst (args.filter fun x => !x.same .PyNone_Type) =
      instancecheck_loop h inst args := by
  induction args with
  | nil => rfl
  | cons a args ih =>
    by_cases ha : a.same .PyNone_Type = true
    · have : a = .PyNone_Type := (same_none_type_iff a).1 ha
      subst this
      simp [List.filter, PyObj.same_refl, instancecheck_loop, PyType_Check, h0, ih]
    · have ha' : a.same .PyNone_Type = false := by simpa using ha
      simp [List.filter, ha', instancecheck_loop, ih]

/-- C12, as the code has it.  The none marker among the operands is the class
`_PyNone_Type`, and `intersection_instancecheck` tests the candidate against it
as against any other class.  When the candidate is not an instance of it
(`PyObject_IsInstance` answers `0`), the check gives the same result as on the
operands with the none marker removed; when the candidate is an instance of it,
no operand is a generic alias and `PyObject_IsInstance` does not fail on the
class operands, the check answers `True`. -/
theorem instancecheck_none_marker (h : Host) (addr : Nat) (args : List PyObj)
    (params : Option (List PyObj)) (inst : PyObj) :
    (h.PyObject_IsInstance inst .PyNone_Type = 0 →
      intersection_instancecheck h (.Intersection addr args params) inst =
        intersection_instancecheck h
          (.Intersection addr (args.filter fun x => !x.same .PyNone_Type) params) inst) ∧
    (PyObj.PyNone_Type ∈ args → (∀ x ∈ args, _PyGenericAlias_Check x = false) →
      (∀ x ∈ args, PyType_Check x = true → 0 ≤ h.PyObject_IsInstance inst x) →
      h.PyObject_IsInstance inst .PyNone_Type ≠ 0 →
      intersection_instancecheck h (.Intersection addr args params) inst = .ok .Py_True) := by
  constructor
  · intro h0
    simp only [intersection_instancecheck, PyObj.args, is_generic_alias_in_args_filter_none,
      instancecheck_loop_filter_none h inst args h0]
  · intro hmem hno hok hne
    have hg : ¬ is_generic_alias_in_args args = 0 := by
      rw [is_generic_alias_in_args_eq_zero_iff]
      rintro ⟨x, hx, hgx⟩
      rw [hno x hx] at hgx
      cases hgx
    simp only [intersection_instancecheck, PyObj.args, hg, if_false]
    rcases instancecheck_loop_spec h inst args hok with ⟨e, _⟩ | ⟨_, hall⟩
    · exact e
    · exact absurd (hall _ hmem rfl) hne

theorem instancecheck_none_marker_witness :
    none_host.PyObject_IsInstance (.object 7) .PyNone_Type = 0 ∧
    intersection_instancecheck none_host
      (.Intersection 9 [.type 1, .PyNone_Type] none) (.object 7) =
      intersection_instancecheck none_host
        (.Intersection 9 ([PyObj.type 1, .PyNone_Type].filter
          fun x => !x.same .PyNone_Type) none) (.object 7) :=
  ⟨rfl, (instancecheck_none_marker none_host 9 [.type 1, .PyNone_Type] none (.object 7)).1
    rfl⟩

/-- C12 fails as stated: with `None` as the candidate, `int & None` answers
`True` through the none marker, and `False` once the none marker is removed. -/
theorem instancecheck_none_marker_matches :
    (∀ x ∈ [PyObj.type 1, .PyNone_Type], _PyGenericAlias_Check x = false) ∧
    _Py_intersection_type_and none_host 9 (.type 1) .Py_None =
      .ok (.Intersection 9 [.type 1, .PyNone_Type] none) ∧
    intersection_instancecheck none_host
      (.Intersection 9 [.type 1, .PyNone_Type] none) .Py_None = .ok .Py_True ∧
    intersection_instancecheck none_host
      (.Intersection 9 [.type 1] none) .Py_None = .ok .Py_False := by
  refine ⟨?_, rfl, rfl, rfl⟩
  intro x hx
  simp only [List.mem_cons, List.mem_singleton, List.not_mem_nil, or_false] at hx
  rcases hx with rfl | rfl <;> rfl

/-! ## Hash -/

/-- Two sets of pairwise unequal entries, one covered by the other and of the
same size, have the same hashes up to order. -/
theorem set_hash_perm {h : Host} {U : List PyObj} (hw : SetFriendly h U) :
    ∀ (sx sy : List PyObj), (∀ e ∈ sx, e ∈ U) → (∀ e ∈ sy, e ∈ U) →
      (sx.Pairwise fun e l => PyObject_RichCompareBool h e l = 0) →
      (∀ x ∈ sx, ∃ y ∈ sy, PyObject_RichCompareBool h y x ≠ 0) →
      sx.length = sy.length →
      (sx.map h.PyObject_Hash).Perm (sy.map h.PyObject_Hash) := by
  intro sx
  induction sx with
  | nil =>
    intro sy _ _ _ _ hlen
    have : sy = [] := List.length_eq_zero.1 hlen.symm
    subst this
    exact List.Perm.refl _
  | cons e sx ih =>
    intro sy hsx hsy hp hcov hlen
    have heU : e ∈ U := hsx e (List.mem_cons_self _ _)
    obtain ⟨y0, hy0, hE0⟩ := hcov e (List.mem_cons_self _ _)
    have hy0U : y0 ∈ U := hsy y0 hy0
    obtain ⟨l1, l2, rfl⟩ := List.append_of_mem hy0
    rw [List.pairwise_cons] at hp
    have hsy' : ∀ z ∈ l1 ++ l2, z ∈ U := by
      intro z hz
      apply hsy
      rcases List.mem_append.1 hz with hm | hm
      · exact List.mem_append_left _ hm
      · exact List.mem_append_right _ (List.mem_cons_of_mem _ hm)
    have hcov' : ∀ x ∈ sx, ∃ y ∈ l1 ++ l2, PyObject_RichCompareBool h y x ≠ 0 := by
      intro x hx
      have hxU : x ∈ U := hsx x (List.mem_cons_of_mem _ hx)
      obtain ⟨y, hy, hE⟩ := hcov x (List.mem_cons_of_mem _ hx)
      rcases List.mem_append.1 hy with hm | hm
      · exact ⟨y, List.mem_append_left _ hm, hE⟩
      · rcases List.mem_cons.1 hm with rfl | hm
        · exfalso
          have h1 := hw.symmetric y hy0U e heU hE0
          exact hw.transitive e heU y hy0U x hxU h1 hE (hp.1 x hx)
        · exact ⟨y, List.mem_append_right _ hm, hE⟩
    have hlen' : sx.length = (l1 ++ l2).length := by
      simp only [List.length_append, List.length_cons] at hlen ⊢
      omega
    have hperm := ih (l1 ++ l2)
      (fun z hz => hsx z (List.mem_cons_of_mem _ hz)) hsy' hp.2 hcov' hlen'
    have hhash : h.PyObject_Hash y0 = h.PyObject_Hash e := hw.same_hash y0 hy0U e heU hE0
    simp only [List.map_cons, List.map_append] at hperm ⊢
    rw [hhash]
    exact (List.Perm.cons _ hperm).trans List.perm_middle.symm

/-- C13 (hash consistency).  `intersection_hash` is the host's hash of the set
view of the operands, computed from the hashes of its entries; hence two
intersection objects whose operands the host can keep in sets (hashable, with a
comparison that does not fail and is an equivalence consistent with the hash)
and that `intersection_richcompare` reports equal have the same hash. -/
theorem hash_consistent (h : Host) (frozenset_hash : Multiset Int → Int) (a b : Nat)
    (xs ys : List PyObj) (p q : Option (List PyObj)) (hw : SetFriendly h (xs ++ ys))
    (heq : intersection_richcompare h (.Intersection a xs p) (.Intersection b ys q) Py_EQ =
      .ok .Py_True) :
    (∃ sx, PyFrozenSet_New h xs = .ok sx ∧
      intersection_hash h frozenset_hash (.Intersection a xs p) =
        frozenset_hash (Multiset.ofList (sx.map h.PyObject_Hash))) ∧
    intersection_hash h frozenset_hash (.Intersection a xs p) =
      intersection_hash h frozenset_hash (.Intersection b ys q) := by
  have hxU : ∀ x ∈ xs, x ∈ xs ++ ys := fun x hx => List.mem_append_left _ hx
  have hyU : ∀ y ∈ ys, y ∈ xs ++ ys := fun y hy => List.mem_append_right _ hy
  obtain ⟨sx, hsx, hsubx, _, hpx⟩ :=
    @set_update_spec h _ hw _ [] hxU (by simp) List.Pairwise.nil
  obtain ⟨sy, hsy, hsuby, _, _⟩ :=
    @set_update_spec h _ hw _ [] hyU (by simp) List.Pairwise.nil
  have hsxU : ∀ e ∈ sx, e ∈ xs ++ ys := by
    intro e he
    rcases hsubx e he with hm | hm
    · simp at hm
    · exact hxU e hm
  have hsyU : ∀ e ∈ sy, e ∈ xs ++ ys := by
    intro e he
    rcases hsuby e he with hm | hm
    · simp at hm
    · exact hyU e hm
  have hdef : intersection_richcompare h (.Intersection a xs p) (.Intersection b ys q)
      Py_EQ = if sx.length ≠ sy.length then .ok .Py_False else set_issubset h sy sx := by
    simp only [intersection_richcompare, _PyIntersection_Check, PyObj.args, PySet_New, hsx,
      hsy, set_richcompare]
    simp
  rw [hdef] at heq
  have hlen : sx.length = sy.length := by
    by_contra hne
    simp [hne] at heq
  simp only [hlen, ne_eq, not_true_eq_false, if_false] at heq
  have hcov : ∀ e ∈ sx, ∃ e' ∈ sy, PyObject_RichCompareBool h e' e ≠ 0 := by
    rcases set_issubset_spec hw hsxU hsyU with ⟨_, hall⟩ | ⟨r, _⟩
    · exact hall
    · rw [r] at heq
      cases heq
  have hperm := set_hash_perm hw sx sy hsxU hsyU hpx hcov hlen
  have hx : intersection_hash h frozenset_hash (.Intersection a xs p) =
      frozenset_hash (Multiset.ofList (sx.map h.PyObject_Hash)) := by
    simp [intersection_hash, PyFrozenSet_New, PyObj.args, hsx]
  have hy : intersection_hash h frozenset_hash (.Intersection b ys q) =
      frozenset_hash (Multiset.ofList (sy.map h.PyObject_Hash)) := by
    simp [intersection_hash, PyFrozenSet_New, PyObj.args, hsy]
  refine ⟨⟨sx, hsx, hx⟩, ?_⟩
  rw [hx, hy]
  exact congrArg frozenset_hash (Multiset.coe_eq_coe.2 hperm)

theorem hash_consistent_witness :
    SetFriendly plain_host ([PyObj.type 1, .PyNone_Type] ++ [.PyNone_Type, .type 1]) ∧
    intersection_richcompare plain_host (.Intersection 10 [.type 1, .PyNone_Type] none)
      (.Intersection 11 [.PyNone_Type, .type 1] none) Py_EQ = .ok .Py_True ∧
    intersection_hash plain_host (fun m => m.sum)
        (.Intersection 10 [.type 1, .PyNone_Type] none) =
      intersection_hash plain_host (fun m => m.sum)
        (.Intersection 11 [.PyNone_Type, .type 1] none) :=
  have hw : SetFriendly plain_host ([PyObj.type 1, .PyNone_Type] ++ [.PyNone_Type, .type 1]) :=
    setFriendly_pair plain_host (by decide) (by decide) rfl rfl
  ⟨hw, rfl,
    (hash_consistent plain_host (fun m => m.sum) 10 11 [.type 1, .PyNone_Type]
      [.PyNone_Type, .type 1] none none hw rfl).2⟩

/-! ## Rich comparison: operators -/

theorem set_issubset_result (h : Host) (other v : List PyObj) :
    set_issubset h other v = .ok .Py_True ∨ set_issubset h other v = .ok .Py_False ∨
      ∃ e, set_issubset h other v = .error e := by
  induction v with
  | nil => left; rfl
  | cons a v ih =>
    simp only [set_issubset]
    split_ifs
    · exact Or.inr (Or.inr ⟨_, rfl⟩)
    · exact Or.inr (Or.inl rfl)
    · exact ih

theorem set_richcompare_eq_result (h : Host) (v w : List PyObj) :
    set_richcompare h v w Py_EQ = .ok .Py_True ∨
      set_richcompare h v w Py_EQ = .ok .Py_False ∨
      ∃ e, set_richcompare h v w Py_EQ = .error e := by
  simp only [set_richcompare, if_true]
  split_ifs
  · exact Or.inr (Or.inl rfl)
  · exact set_issubset_result h w v

theorem set_richcompare_ne (h : Host) (v w : List PyObj) :
    (set_richcompare h v w Py_EQ = .ok .Py_True →
      set_richcompare h v w Py_NE = .ok .Py_False) ∧
    (set_richcompare h v w Py_EQ = .ok .Py_False →
      set_richcompare h v w Py_NE = .ok .Py_True) ∧
    (∀ e, set_richcompare h v w Py_EQ = .error e →
      set_richcompare h v w Py_NE = .error e) := by
  have hne : ¬ Py_NE = Py_EQ := by decide
  simp only [set_richcompare, if_true, hne, if_false]
  refine ⟨?_, ?_, ?_⟩
  · intro heq
    rw [heq]
    rfl
  · intro heq
    rw [heq]
    rfl
  · intro e heq
    rw [heq]

/-- C14.  `intersection_richcompare(a, b, op)` returns `NotImplemented` exactly
when `b` is not an intersection object or `op` is neither `Py_EQ` nor `Py_NE`.
Against an intersection object, `==` and `!=` return `True`, `False` or an
error, and `!=` returns the negation of what `==` returns (and fails when `==`
fails). -/
theorem richcompare_notimplemented_iff (h : Host) (addr : Nat) (xs : List PyObj)
    (p : Option (List PyObj)) (b : PyObj) (op : Int) :
    (intersection_richcompare h (.Intersection addr xs p) b op = .ok .Py_NotImplemented ↔
      (_PyIntersection_Check b = false ∨ (op ≠ Py_EQ ∧ op ≠ Py_NE))) ∧
    (_PyIntersection_Check b = true →
      (intersection_richcompare h (.Intersection addr xs p) b Py_EQ = .ok .Py_True ∨
        intersection_richcompare h (.Intersection addr xs p) b Py_EQ = .ok .Py_False ∨
        ∃ e, intersection_richcompare h (.Intersection addr xs p) b Py_EQ = .error e) ∧
      (intersection_richcompare h (.Intersection addr xs p) b Py_EQ = .ok .Py_True →
        intersection_richcompare h (.Intersection addr xs p) b Py_NE = .ok .Py_False) ∧
      (intersection_richcompare h (.Intersection addr xs p) b Py_EQ = .ok .Py_False →
        intersection_richcompare h (.Intersection addr xs p) b Py_NE = .ok .Py_True) ∧
      (∀ e, intersection_richcompare h (.Intersection addr xs p) b Py_EQ = .error e →
        intersection_richcompare h (.Intersection addr xs p) b Py_NE = .error e)) := by
  have hcmp : ∀ op', _PyIntersection_Check b = true → (op' = Py_EQ ∨ op' = Py_NE) →
      intersection_richcompare h (.Intersection addr xs p) b op' =
        match PySet_New h xs with
        | .error e => .error e
        | .ok a_set =>
          match PySet_New h b.args with
          | .error e => .error e
          | .ok b_set => set_richcompare h a_set b_set op' := by
    intro op' hb hop
    have hg : (op' != Py_EQ && op' != Py_NE) = false := by
      rcases hop with rfl | rfl <;> decide
    simp only [intersection_richcompare, hb, Bool.not_true, hg, Bool.or_self,
      Bool.false_eq_true, if_false, PyObj.args]
  have hres : ∀ op', _PyIntersection_Check b = true → (op' = Py_EQ ∨ op' = Py_NE) →
      intersection_richcompare h (.Intersection addr xs p) b op' ≠ .ok .Py_NotImplemented := by
    intro op' hb hop hcon
    rw [hcmp op' hb hop] at hcon
    revert hcon
    cases PySet_New h xs with
    | error e => intro hcon; cases hcon
    | ok a_set =>
      cases PySet_New h b.args with
      | error e => intro hcon; cases hcon
      | ok b_set =>
        intro hcon
        change set_richcompare h a_set b_set op' = _ at hcon
        rcases hop with rfl | rfl
        · rcases set_richcompare_eq_result h a_set b_set with r | r | ⟨e, r⟩ <;>
            rw [r] at hcon <;> cases hcon
        · rcases set_richcompare_eq_result h a_set b_set with r | r | ⟨e, r⟩
          · rw [(set_richcompare_ne h a_set b_set).1 r] at hcon
            cases hcon
          · rw [(set_richcompare_ne h a_set b_set).2.1 r] at hcon
            cases hcon
          · rw [(set_richcompare_ne h a_set b_set).2.2 e r] at hcon
            cases hcon
  refine ⟨⟨?_, ?_⟩, ?_⟩
  · intro hni
    by_contra hcon
    have hb : _PyIntersection_Check b = true := by
      by_contra hx
      exact hcon (Or.inl (by simpa using hx))
    have hop : op = Py_EQ ∨ op = Py_NE := by
      by_contra hx
      exact hcon (Or.inr ⟨fun e => hx (Or.inl e), fun e => hx (Or.inr e)⟩)
    exact hres op hb hop hni
  · rintro (hb | ⟨h1, h2⟩)
    · simp [intersection_richcompare, hb]
    · simp [intersection_richcompare, h1, h2]
  · intro hb
    rw [hcmp Py_EQ hb (Or.inl rfl), hcmp Py_NE hb (Or.inr rfl)]
    cases PySet_New h xs with
    | error e =>
      refine ⟨Or.inr (Or.inr ⟨e, rfl⟩), ?_, ?_, ?_⟩
      · intro hc; cases hc
      · intro hc; cases hc
      · intro e' hc; exact hc
    | ok a_set =>
      cases PySet_New h b.args with
      | error e =>
        refine ⟨Or.inr (Or.inr ⟨e, rfl⟩), ?_, ?_, ?_⟩
        · intro hc; cases hc
        · intro hc; cases hc
        · intro e' hc; exact hc
      | ok b_set =>
        exact ⟨set_richcompare_eq_result h a_set b_set, set_richcompare_ne h a_set b_set⟩

theorem richcompare_notimplemented_iff_witness :
    _PyIntersection_Check (.Intersection 11 [.PyNone_Type, .type 2] none) = true ∧
    intersection_richcompare plain_host (.Intersection 10 [.type 1, .PyNone_Type] none)
      (.Intersection 11 [.PyNone_Type, .type 2] none) Py_EQ = .ok .Py_False ∧
    intersection_richcompare plain_host (.Intersection 10 [.type 1, .PyNone_Type] none)
      (.Intersection 11 [.PyNone_Type, .type 2] none) Py_NE = .ok .Py_True ∧
    intersection_richcompare plain_host (.Intersection 10 [.type 1, .PyNone_Type] none)
      (.Intersection 11 [.PyNone_Type, .type 2] none) 0 = .ok .Py_NotImplemented :=
  have key := richcompare_notimplemented_iff plain_host 10 [.type 1, .PyNone_Type] none
    (.Intersection 11 [.PyNone_Type, .type 2] none)
  ⟨rfl, rfl, ((key Py_EQ).2 rfl).2.2.1 rfl,
    (key 0).1.2 (Or.inr ⟨by decide, by decide⟩)⟩

/-! ## Zero-operand intersection objects -/

theorem dedup_loop_eq_nil (h : Host) {xs : List PyObj}
    (hout : dedup_loop h xs [] = .ok []) : xs = [] := by
  cases xs with
  | nil => rfl
  | cons x xs =>
    exfalso
    rw [dedup_loop_cons] at hout
    simp only [dedup_scan, lt_self_iff_false, if_false, if_true, List.nil_append] at hout
    have hpre := dedup_loop_extends h hout
    simp at hpre

/-- C15, as the code has it.  For operands accepted by `is_intersectionable`
whose own operands hold no intersection object, `_Py_intersection_type_and`
returns an intersection object without operands exactly when both operands are
intersection objects without operands; in every other case what it returns is
not a zero-operand intersection object. -/
theorem type_and_zero_operands_iff (h : Host) (addr : Nat) (left right : PyObj)
    (hl : is_intersectionable left = true) (hr : is_intersectionable right = true)
    (hl1 : left.I1 = true) (hr1 : right.I1 = true) :
    (∃ a p, _Py_intersection_type_and h addr left right = .ok (.Intersection a [] p)) ↔
      (_PyIntersection_Check left = true ∧ left.args = [] ∧
        _PyIntersection_Check right = true ∧ right.args = []) := by
  have hand : _Py_intersection_type_and h addr left right =
      make_intersection h addr [left, right] := by
    simp [_Py_intersection_type_and, hl, hr]
  have hargs : ∀ x ∈ [left, right], x.I1 = true := by
    intro x hx
    simp only [List.mem_cons, List.mem_singleton, List.not_mem_nil, or_false] at hx
    rcases hx with rfl | rfl
    · exact hl1
    · exact hr1
  rw [hand]
  constructor
  · rintro ⟨a, p, hres⟩
    have hfl : flatten_args [left, right] = [] := by
      unfold make_intersection at hres
      split at hres
      · cases hres
      · next e heq =>
        exfalso
        simp only [Except.ok.injEq] at hres
        subst hres
        rcases dedup_loop_mem h heq _ (List.mem_singleton_self _) with hm | hm
        · simp at hm
        · have := flatten_args_no_intersection hargs _ hm
          simp [_PyIntersection_Check] at this
      · next out _ heq =>
        simp only [Except.ok.injEq, PyObj.Intersection.injEq] at hres
        obtain ⟨_, rfl, _⟩ := hres
        exact dedup_loop_eq_nil h heq
    rw [flatten_args_cons, flatten_args_cons] at hfl
    simp only [flatten_args, List.append_nil, List.append_eq_nil] at hfl
    obtain ⟨h1, h2⟩ := hfl
    by_cases cl : _PyIntersection_Check left = true
    · by_cases cr : _PyIntersection_Check right = true
      · rw [if_pos cl] at h1
        rw [if_pos cr] at h2
        exact ⟨cl, h1, cr, h2⟩
      · rw [if_neg cr] at h2
        cases h2
    · rw [if_neg cl] at h1
      cases h1
  · rintro ⟨cl, al, cr, ar⟩
    refine ⟨addr, none, ?_⟩
    have hfl : flatten_args [left, right] = [] := by
      rw [flatten_args_cons, flatten_args_cons]
      simp [cl, cr, al, ar, flatten_args]
    simp [make_intersection, dedup_and_flatten_args, hfl, dedup_loop]

theorem type_and_zero_operands_iff_witness :
    is_intersectionable (.Intersection 1 [] none) = true ∧
    is_intersectionable (.type 2) = true ∧
    (PyObj.Intersection 1 [] none).I1 = true ∧ (PyObj.type 2).I1 = true ∧
    _Py_intersection_type_and plain_host 5 (.Intersection 1 [] none) (.type 2) =
      .ok (.type 2) ∧
    ((∃ a p, _Py_intersection_type_and plain_host 5 (.Intersection 1 [] none) (.type 2) =
        .ok (.Intersection a [] p)) ↔
      (_PyIntersection_Check (.Intersection 1 [] none) = true ∧
        (PyObj.Intersection 1 [] none).args = [] ∧
        _PyIntersection_Check (.type 2) = true ∧ (PyObj.type 2).args = [])) :=
  ⟨rfl, rfl, rfl, rfl, rfl,
    type_and_zero_operands_iff plain_host 5 (.Intersection 1 [] none) (.type 2) rfl rfl rfl
      rfl⟩

/-- C15 fails as stated: the combinator applied to two intersection objects
without operands (accepted by `is_intersectionable`) builds an intersection
object without operands. -/
theorem type_and_builds_zero_operands :
    is_intersectionable (.Intersection 1 [] none) = true ∧
    is_intersectionable (.Intersection 2 [] none) = true ∧
    _Py_intersection_type_and plain_host 5 (.Intersection 1 [] none)
      (.Intersection 2 [] none) = .ok (.Intersection 5 [] none) :=
  ⟨rfl, rfl, rfl⟩

/-! ## Rendering -/

theorem repr_item_writer (rh : ReprHost) (w : String) {p : PyObj} {t : String}
    (ht : intersection_repr_item rh "" p = .ok t) :
    intersection_repr_item rh w p = .ok (w ++ t) := by
  unfold intersection_repr_item at ht ⊢
  split_ifs at ht ⊢
  · simp only [String.empty_append, Except.ok.injEq] at ht
    rw [ht]
  · cases hr : intersection_repr_item_r rh p with
    | error e =>
      rw [hr] at ht
      cases ht
    | ok r =>
      rw [hr] at ht
      simp only [String.empty_append, Except.ok.injEq] at ht
      rw [ht]

theorem repr_item_eq_r (rh : ReprHost) {p : PyObj} (hp : p.same .PyNone_Type = false) :
    intersection_repr_item rh "" p = intersection_repr_item_r rh p := by
  unfold intersection_repr_item
  rw [if_neg (by simp [hp])]
  cases intersection_repr_item_r rh p with
  | error e => rfl
  | ok r => simp [String.empty_append]

theorem repr_loop_spec (rh : ReprHost) :
    ∀ (args : List PyObj) (texts : List String) (i : Nat) (w : String),
      args.map (intersection_repr_item rh "") = texts.map Except.ok →
      intersection_repr_loop rh (i + 1) args w =
        .ok (String.intercalate.go w " & " texts) := by
  intro args
  induction args with
  | nil =>
    intro texts i w hmap
    cases texts with
    | nil => rfl
    | cons t ts => simp at hmap
  | cons p rest ih =>
    intro texts i w hmap
    cases texts with
    | nil => simp at hmap
    | cons t ts =>
      simp only [List.map_cons, List.cons.injEq] at hmap
      obtain ⟨hp, hrest⟩ := hmap
      simp only [intersection_repr_loop, Nat.succ_pos, if_true,
        repr_item_writer rh (w ++ " & ") hp, gt_iff_lt, Nat.lt_add_left_iff_pos,
        Nat.lt_one_iff, pos_of_gt, Nat.add_pos_iff_pos_or_pos, or_true]
      rw [ih ts (i + 1) (w ++ " & " ++ t) hrest]
      rfl

theorem repr_spec (rh : ReprHost) (addr : Nat) (args : List PyObj)
    (params : Option (List PyObj)) (texts : List String)
    (hmap : args.map (intersection_repr_item rh "") = texts.map Except.ok) :
    intersection_repr rh (.Intersection addr args params) =
      .ok (String.intercalate " & " texts) := by
  unfold intersection_repr
  simp only [PyObj.args]
  cases args with
  | nil =>
    cases texts with
    | nil => rfl
    | cons t ts => simp at hmap
  | cons p rest =>
    cases texts with
    | nil => simp at hmap
    | cons t ts =>
      simp only [List.map_cons, List.cons.injEq] at hmap
      obtain ⟨hp, hrest⟩ := hmap
      simp only [intersection_repr_loop, lt_self_iff_false, if_false, gt_iff_lt, hp]
      rw [repr_loop_spec rh rest ts 0 t hrest]
      rfl

/-- C16.  When every operand renders, `intersection_repr` returns the texts of
the operands joined by `" & "` in the order of `args` (one separator between
two consecutive operands, the empty string for no operand).  The text of an
operand: `"None"` for the none marker `_PyNone_Type`; the operand's own `repr`
when it exposes both `__origin__` and `__args__`; otherwise, when it exposes
`__qualname__` and a `__module__` other than `None` (a class), the `str` of the
qualified name when the module is the string `"builtins"`, and
`"<module>.<qualname>"` for any other module.  So `int & str` renders as
`"int & str"`. -/
theorem repr_joined (rh : ReprHost) (addr : Nat) (args : List PyObj)
    (params : Option (List PyObj)) (texts : List String)
    (hmap : args.map (intersection_repr_item rh "") = texts.map Except.ok) :
    intersection_repr rh (.Intersection addr args params) =
      .ok (String.intercalate " & " texts) ∧
    intersection_repr rh (.Intersection addr [] params) = .ok "" ∧
    intersection_repr_item rh "" .PyNone_Type = .ok "None" ∧
    (∀ p o a, p.same .PyNone_Type = false →
      rh.LookupAttr p "__origin__" = .ok (some o) →
      rh.LookupAttr p "__args__" = .ok (some a) →
      intersection_repr_item rh "" p = rh.PyObject_Repr p) ∧
    (∀ p q m, p.same .PyNone_Type = false →
      (rh.LookupAttr p "__origin__" = .ok none ∨
        ((∃ o, rh.LookupAttr p "__origin__" = .ok (some o)) ∧
          rh.LookupAttr p "__args__" = .ok none)) →
      rh.LookupAttr p "__qualname__" = .ok (some q) →
      rh.LookupAttr p "__module__" = .ok (some m) →
      m.same .Py_None = false →
      ((rh.PyUnicode_Check m = true ∧ rh.PyUnicode_EqualToASCIIString m "builtins" = true) →
        intersection_repr_item rh "" p = rh.PyObject_Str q) ∧
      (¬ (rh.PyUnicode_Check m = true ∧
          rh.PyUnicode_EqualToASCIIString m "builtins" = true) →
        ∀ ms qs, rh.PyObject_Str m = .ok ms → rh.PyObject_Str q = .ok qs →
          intersection_repr_item rh "" p = .ok (ms ++ "." ++ qs))) ∧
    (_Py_intersection_type_and plain_host 0 (.type 1) (.type 2) =
        .ok (.Intersection 0 [.type 1, .type 2] none) ∧
      intersection_repr example_repr_host (.Intersection 0 [.type 1, .type 2] none) =
        .ok "int & str") := by
  refine ⟨repr_spec rh addr args params texts hmap, rfl, ?_, ?_, ?_, rfl, rfl⟩
  · simp [intersection_repr_item, PyObj.same_refl]
  · intro p o a hp ho ha
    rw [repr_item_eq_r rh hp]
    simp [intersection_repr_item_r, ho, ha]
  · intro p q m hp hog hq hm hmn
    rw [repr_item_eq_r rh hp]
    have hr : intersection_repr_item_r rh p =
        if rh.PyUnicode_Check m && rh.PyUnicode_EqualToASCIIString m "builtins" then
          rh.PyObject_Str q
        else format_module_qualname rh m q := by
      rcases hog with ho | ⟨⟨o, ho⟩, ha⟩
      · simp [intersection_repr_item_r, ho, hq, hm, hmn]
      · simp [intersection_repr_item_r, ho, ha, hq, hm, hmn]
    rw [hr]
    constructor
    · rintro ⟨h1, h2⟩
      simp [h1, h2]
    · intro hnot ms qs hms hqs
      have hb : (rh.PyUnicode_Check m && rh.PyUnicode_EqualToASCIIString m "builtins") =
          false := by
        simpa using hnot
      simp [hb, format_module_qualname, hms, hqs]

theorem repr_joined_witness :
    [PyObj.type 3, .PyNone_Type, .GenericAlias 4, .type 1].map
        (intersection_repr_item example_repr_host "") =
      ["pkg.mod.Foo", "None", "list[int]", "int"].map Except.ok ∧
    intersection_repr example_repr_host
        (.Intersection 9 [.type 3, .PyNone_Type, .GenericAlias 4, .type 1] none) =
      .ok "pkg.mod.Foo & None & list[int] & int" :=
  ⟨rfl, (repr_joined example_repr_host 9 [.type 3, .PyNone_Type, .GenericAlias 4, .type 1]
    none ["pkg.mod.Foo", "None", "list[int]", "int"] rfl).1⟩

/-! ## Dedup keeps first occurrences -/

theorem dedup_loop_sublist (h : Host) {xs acc out : List PyObj}
    (hout : dedup_loop h xs acc = .ok out) : ∃ t, out = acc ++ t ∧ t.Sublist xs := by
  induction xs generalizing acc with
  | nil =>
    simp only [dedup_loop, Except.ok.injEq] at hout
    subst hout
    exact ⟨[], by simp, List.Sublist.refl _⟩
  | cons x xs ih =>
    rw [dedup_loop_cons] at hout
    split_ifs at hout
    · obtain ⟨t, ht, hsub⟩ := ih hout
      refine ⟨x :: t, ?_, hsub.cons₂ x⟩
      rw [ht]
      simp
    · obtain ⟨t, ht, hsub⟩ := ih hout
      exact ⟨t, ht, hsub.cons x⟩

theorem dedup_loop_split (h : Host) {l1 rest acc0 out : List PyObj}
    (hout : dedup_loop h (l1 ++ rest) acc0 = .ok out) :
    ∃ acc, dedup_loop h l1 acc0 = .ok acc ∧ dedup_loop h rest acc = .ok out := by
  rw [dedup_loop_append] at hout
  cases hacc : dedup_loop h l1 acc0 with
  | error e =>
    rw [hacc] at hout
    cases hout
  | ok acc =>
    rw [hacc] at hout
    exact ⟨acc, rfl, hout⟩

theorem dedup_scan_pos (h : Host) (x : PyObj) (acc : List PyObj)
    (hpos : 0 < dedup_scan h x acc) : ∃ e ∈ acc, 0 < is_duplicate h x e := by
  induction acc with
  | nil => simp [dedup_scan] at hpos
  | cons a acc ih =>
    simp only [dedup_scan] at hpos
    split_ifs at hpos with h1 h2
    · omega
    · exact ⟨a, List.mem_cons_self _ _, hpos⟩
    · obtain ⟨e, he, hE⟩ := ih hpos
      exact ⟨e, List.mem_cons_of_mem _ he, hE⟩

/-- C17.  When no comparison fails, the tuple returned by
`dedup_and_flatten_args` is a subsequence of the flattened tuple and starts with
its first element.  For every element `x` of the flattened tuple, with `acc`
the elements accepted from those before it (a subsequence of them and the
beginning of the result): either `x` is a duplicate of no element of `acc` and
is appended to it, or `x` is a duplicate of an element of `acc` and is dropped;
so every element is in the result or a duplicate of an element of the result
that comes before it in the flattened tuple. -/
theorem dedup_first_occurrence (h : Host) (args out : List PyObj)
    (hout : dedup_and_flatten_args h args = .ok out) :
    out.Sublist (flatten_args args) ∧
    (∀ x rest, flatten_args args = x :: rest → ∃ t, out = x :: t) ∧
    (∀ l1 x l2, flatten_args args = l1 ++ x :: l2 →
      ∃ acc, dedup_loop h l1 [] = .ok acc ∧ acc.Sublist l1 ∧ acc <+: out ∧
        (((∀ e ∈ acc, is_duplicate h x e = 0) ∧
            dedup_loop h (l1 ++ [x]) [] = .ok (acc ++ [x]) ∧ (acc ++ [x]) <+: out) ∨
          ((∃ e ∈ acc, 0 < is_duplicate h x e) ∧
            dedup_loop h (l1 ++ [x]) [] = .ok acc))) ∧
    (∀ l1 x l2, flatten_args args = l1 ++ x :: l2 →
      x ∈ out ∨ ∃ e ∈ out, e ∈ l1 ∧ 0 < is_duplicate h x e) := by
  unfold dedup_and_flatten_args at hout
  have hstep : ∀ l1 x l2, flatten_args args = l1 ++ x :: l2 →
      ∃ acc, dedup_loop h l1 [] = .ok acc ∧ acc.Sublist l1 ∧ acc <+: out ∧
        (((∀ e ∈ acc, is_duplicate h x e = 0) ∧
            dedup_loop h (l1 ++ [x]) [] = .ok (acc ++ [x]) ∧ (acc ++ [x]) <+: out) ∨
          ((∃ e ∈ acc, 0 < is_duplicate h x e) ∧
            dedup_loop h (l1 ++ [x]) [] = .ok acc)) := by
    intro l1 x l2 hfl
    rw [hfl] at hout
    obtain ⟨acc, hacc, hrest⟩ := dedup_loop_split h hout
    have hsub : acc.Sublist l1 := by
      obtain ⟨t, ht, hs⟩ := dedup_loop_sublist h hacc
      rw [ht]
      simpa using hs
    refine ⟨acc, hacc, hsub, dedup_loop_extends h hrest, ?_⟩
    rw [dedup_loop_cons] at hrest
    split_ifs at hrest with h1 h2
    · left
      refine ⟨(dedup_scan_eq_zero_iff h x acc).1 h2, ?_, dedup_loop_extends h hrest⟩
      rw [dedup_loop_append, hacc]
      exact dedup_loop_singleton h h2
    · right
      have hpos : 0 < dedup_scan h x acc := by omega
      refine ⟨dedup_scan_pos h x acc hpos, ?_⟩
      rw [dedup_loop_append, hacc]
      show dedup_loop h [x] acc = .ok acc
      simp [dedup_loop_cons, h1, h2, dedup_loop]
  refine ⟨?_, ?_, hstep, ?_⟩
  · obtain ⟨t, ht, hs⟩ := dedup_loop_sublist h hout
    rw [ht]
    simpa using hs
  · intro x rest hfl
    obtain ⟨acc, hacc, _, _, hcase⟩ := hstep [] x rest (by simpa using hfl)
    simp only [dedup_loop, Except.ok.injEq] at hacc
    subst hacc
    rcases hcase with ⟨_, _, hpre⟩ | ⟨⟨e, he, _⟩, _⟩
    · obtain ⟨t, ht⟩ := hpre
      exact ⟨t, by simpa using ht.symm⟩
    · simp at he
  · intro l1 x l2 hfl
    obtain ⟨acc, _, hsub, hpre, hcase⟩ := hstep l1 x l2 hfl
    rcases hcase with ⟨_, _, hpre'⟩ | ⟨⟨e, he, hE⟩, _⟩
    · left
      exact hpre'.subset (List.mem_append_right _ (List.mem_singleton_self _))
    · right
      exact ⟨e, hpre.subset he, hsub.subset he, hE⟩

theorem dedup_first_occurrence_witness :
    dedup_and_flatten_args plain_host
      [.type 1, .Intersection 9 [.type 2, .type 1, .GenericAlias 3] none, .GenericAlias 3,
        .Py_None, .PyNone_Type] =
      .ok [.type 1, .type 2, .GenericAlias 3, .PyNone_Type] ∧
    [PyObj.type 1, .type 2, .GenericAlias 3, .PyNone_Type].Sublist
      (flatten_args
        [.type 1, .Intersection 9 [.type 2, .type 1, .GenericAlias 3] none, .GenericAlias 3,
          .Py_None, .PyNone_Type]) :=
  ⟨rfl, (dedup_first_occurrence plain_host
    [.type 1, .Intersection 9 [.type 2, .type 1, .GenericAlias 3] none, .GenericAlias 3,
      .Py_None, .PyNone_Type] _ rfl).1⟩

/-! ## Flatten -/

/-- C18.  `flatten_args` returns the concatenation, in the order of the input,
of the operands of each intersection object and of each other element as it is
stored: unchanged, except that `None` becomes the type object `_PyNone_Type`.
Its length is the number of operands of the intersection objects plus the
number of other elements (the count of the first loop), and `None` does not
occur in it when it does not occur among the operands of the intersection
objects of the input. -/
theorem flatten_args_spec (args : List PyObj) :
    flatten_args args =
      args.flatMap (fun x =>
        if _PyIntersection_Check x then x.args else [stored_operand x]) ∧
    (flatten_args args).length =
      ((args.filter _PyIntersection_Check).map fun x => x.args.length).sum +
        (args.filter fun x => !_PyIntersection_Check x).length ∧
    (flatten_args args).length = flatten_args_total args ∧
    (stored_operand .Py_None = .PyNone_Type ∧
      ∀ x, x.same .Py_None = false → stored_operand x = x) ∧
    ((∀ x ∈ args, ∀ y ∈ x.args, y.same .Py_None = false) →
      ∀ y ∈ flatten_args args, y.same .Py_None = false) := by
  refine ⟨?_, ?_, flatten_args_length args, ⟨rfl, ?_⟩, ?_⟩
  · induction args with
    | nil => rfl
    | cons x xs ih =>
      rw [flatten_args_cons, ih]
      simp [List.flatMap_cons, stored_operand]
  · induction args with
    | nil => rfl
    | cons x xs ih =>
      rw [flatten_args_cons, List.length_append, ih]
      by_cases hx : _PyIntersection_Check x = true
      · simp [List.filter, hx]
        omega
      · have hx' : _PyIntersection_Check x = false := by simpa using hx
        simp [List.filter, hx']
        omega
  · intro x hx
    simp [stored_operand, hx]
  · intro hnested y hy
    obtain ⟨x, hx, hor⟩ := flatten_args_mem hy
    rcases hor with ⟨_, hmem⟩ | ⟨_, hyx⟩
    · exact hnested x hx y hmem
    · subst hyx
      split_ifs with hn
      · rfl
      · simpa using hn

theorem flatten_args_spec_witness :
    (∀ x ∈ [PyObj.Py_None, .Intersection 9 [.type 2, .PyNone_Type] none, .type 1, .Py_None],
      ∀ y ∈ x.args, y.same .Py_None = false) ∧
    flatten_args [.Py_None, .Intersection 9 [.type 2, .PyNone_Type] none, .type 1, .Py_None] =
      [.PyNone_Type, .type 2, .PyNone_Type, .type 1, .PyNone_Type] ∧
    ∀ y ∈ flatten_args
        [.Py_None, .Intersection 9 [.type 2, .PyNone_Type] none, .type 1, .Py_None],
      y.same .Py_None = false :=
  have hn : ∀ x ∈ [PyObj.Py_None, .Intersection 9 [.type 2, .PyNone_Type] none, .type 1,
      .Py_None], ∀ y ∈ x.args, y.same .Py_None = false := by
    intro x hx y hy
    simp only [List.mem_cons, List.mem_singleton, List.not_mem_nil, or_false] at hx
    rcases hx with rfl | rfl | rfl | rfl
    · simp [PyObj.args] at hy
    · simp only [PyObj.args, List.mem_cons, List.mem_singleton, List.not_mem_nil,
        or_false] at hy
      rcases hy with rfl | rfl <;> rfl
    · simp [PyObj.args] at hy
    · simp [PyObj.args] at hy
  ⟨hn, rfl, (flatten_args_spec _).2.2.2.2 hn⟩

/-! ## Failing comparisons -/

theorem dedup_scan_neg (h : Host) (x e : PyObj) (a1 a2 : List PyObj)
    (hbefore : ∀ e' ∈ a1, is_duplicate h x e' = 0) (hfail : is_duplicate h x e < 0) :
    dedup_scan h x (a1 ++ e :: a2) < 0 := by
  induction a1 with
  | nil => simp [dedup_scan, hfail]
  | cons a a1 ih =>
    have h0 := hbefore a (List.mem_cons_self _ _)
    simp only [List.cons_append, dedup_scan, h0, lt_self_iff_false, if_false, ne_eq,
      not_true_eq_false]
    exact ih fun e' he' => hbefore e' (List.mem_cons_of_mem _ he')

/-- C19.  When the comparison of a candidate generic alias `x` with an accepted
generic alias `e` fails, no accepted element before `e` having matched, then
`dedup_and_flatten_args`, `make_intersection` and `_Py_intersection_type_and`
all return the error, and no object.  A comparison of two elements that are not
both generic aliases is by identity: its result is `0` or `1`, never a
failure. -/
theorem comparison_failure_aborts (h : Host) (addr : Nat) (args l1 l2 acc a1 a2 : List PyObj)
    (x e : PyObj) (hfl : flatten_args args = l1 ++ x :: l2)
    (hacc : dedup_loop h l1 [] = .ok acc) (hsplit : acc = a1 ++ e :: a2)
    (hbefore : ∀ e' ∈ a1, is_duplicate h x e' = 0)
    (hx : _PyGenericAlias_Check x = true) (he : _PyGenericAlias_Check e = true)
    (hfail : PyObject_RichCompareBool h x e < 0) :
    dedup_and_flatten_args h args = .error .Raised ∧
    make_intersection h addr args = .error .Raised ∧
    (∀ left right, args = [left, right] → is_intersectionable left = true →
      is_intersectionable right = true →
      _Py_intersection_type_and h addr left right = .error .Raised) ∧
    (∀ u v, (_PyGenericAlias_Check u && _PyGenericAlias_Check v) = false →
      is_duplicate h u v = 0 ∨ is_duplicate h u v = 1) := by
  have hdup : is_duplicate h x e < 0 := by
    simpa [is_duplicate, hx, he] using hfail
  have hscan : dedup_scan h x acc < 0 := by
    rw [hsplit]
    exact dedup_scan_neg h x e a1 a2 hbefore hdup
  have hd : dedup_and_flatten_args h args = .error .Raised := by
    unfold dedup_and_flatten_args
    rw [hfl, dedup_loop_append, hacc]
    show dedup_loop h (x :: l2) acc = .error .Raised
    rw [dedup_loop_cons, if_pos hscan]
  have hm : make_intersection h addr args = .error .Raised := by
    simp [make_intersection, hd]
  refine ⟨hd, hm, ?_, ?_⟩
  · intro left right hargs hl hr
    subst hargs
    simpa [_Py_intersection_type_and, hl, hr] using hm
  · intro u v hga
    unfold is_duplicate
    simp only [hga, Bool.false_eq_true, if_false]
    split_ifs
    · exact Or.inr rfl
    · exact Or.inl rfl

theorem comparison_failure_aborts_witness :
    flatten_args [.Intersection 9 [.type 1, .GenericAlias 3] none, .GenericAlias 99] =
      [.type 1, .GenericAlias 3] ++ .GenericAlias 99 :: [] ∧
    dedup_loop failing_host [.type 1, .GenericAlias 3] [] =
      .ok [.type 1, .GenericAlias 3] ∧
    (∀ e' ∈ [PyObj.type 1], is_duplicate failing_host (.GenericAlias 99) e' = 0) ∧
    PyObject_RichCompareBool failing_host (.GenericAlias 99) (.GenericAlias 3) < 0 ∧
    make_intersection failing_host 0
      [.Intersection 9 [.type 1, .GenericAlias 3] none, .GenericAlias 99] =
        .error .Raised ∧
    _Py_intersection_type_and failing_host 0
      (.Intersection 9 [.type 1, .GenericAlias 3] none) (.GenericAlias 99) =
        .error .Raised :=
  have hbefore : ∀ e' ∈ [PyObj.type 1],
      is_duplicate failing_host (.GenericAlias 99) e' = 0 := by
    intro e' he'
    rw [List.mem_singleton.1 he']
    rfl
  have key := comparison_failure_aborts failing_host 0
    [.Intersection 9 [.type 1, .GenericAlias 3] none, .GenericAlias 99]
    [.type 1, .GenericAlias 3] [] [.type 1, .GenericAlias 3] [.type 1] []
    (.GenericAlias 99) (.GenericAlias 3) rfl rfl rfl hbefore rfl rfl (by decide)
  ⟨rfl, rfl, hbefore, by decide, key.2.1, key.2.2.1 _ _ rfl rfl rfl⟩

/-! ## Associativity -/

theorem PyObj.same_trans {a b c : PyObj} (hab : a.same b = true) (hbc : b.same c = true) :
    a.same c = true := by
  rw [PyObj.same_iff] at hab hbc ⊢
  exact hab.trans hbc

theorem generic_alias_iff_ident (x : PyObj) :
    _PyGenericAlias_Check x = true ↔ x.ident.1 = 2 := by
  cases x <;> simp [_PyGenericAlias_Check, PyObj.ident]

theorem same_generic_alias {a b : PyObj} (hab : a.same b = true) :
    _PyGenericAlias_Check a = _PyGenericAlias_Check b := by
  rw [PyObj.same_iff] at hab
  have h1 := generic_alias_iff_ident a
  have h2 := generic_alias_iff_ident b
  rw [hab] at h1
  rw [Bool.eq_iff_iff, h1, h2]

theorem is_duplicate_nonneg (h : Host)
    (hnofail : ∀ x y, _PyGenericAlias_Check x = true → _PyGenericAlias_Check y = true →
      0 ≤ PyObject_RichCompareBool h x y) (u v : PyObj) : 0 ≤ is_duplicate h u v := by
  unfold is_duplicate
  by_cases hga : (_PyGenericAlias_Check u && _PyGenericAlias_Check v) = true
  · simp only [hga, if_true]
    simp only [Bool.and_eq_true] at hga
    exact hnofail u v hga.1 hga.2
  · simp only [hga, Bool.false_eq_true, if_false]
    split_ifs <;> omega

theorem is_duplicate_trans (h : Host)
    (hnofail : ∀ x y, _PyGenericAlias_Check x = true → _PyGenericAlias_Check y = true →
      0 ≤ PyObject_RichCompareBool h x y)
    (htrans : ∀ x y z, _PyGenericAlias_Check x = true → _PyGenericAlias_Check y = true →
      _PyGenericAlias_Check z = true → PyObject_RichCompareBool h x y ≠ 0 →
      PyObject_RichCompareBool h y z ≠ 0 → PyObject_RichCompareBool h x z ≠ 0)
    {x y z : PyObj} (hxy : 0 < is_duplicate h x y) (hyz : 0 < is_duplicate h y z) :
    0 < is_duplicate h x z := by
  by_cases gx : _PyGenericAlias_Check x = true
  · by_cases gy : _PyGenericAlias_Check y = true
    · by_cases gz : _PyGenericAlias_Check z = true
      · simp only [is_duplicate, gx, gy, gz, Bool.and_self, if_true] at hxy hyz ⊢
        have hne := htrans x y z gx gy gz (by omega) (by omega)
        have h0 := hnofail x z gx gz
        omega
      · exfalso
        have gz' : _PyGenericAlias_Check z = false := by simpa using gz
        simp only [is_duplicate, gy, gz', Bool.and_false, Bool.false_eq_true,
          if_false] at hyz
        by_cases hs : y.same z = true
        · have := same_generic_alias hs
          rw [gy, gz'] at this
          cases this
        · simp [hs] at hyz
    · exfalso
      have gy' : _PyGenericAlias_Check y = false := by simpa using gy
      simp only [is_duplicate, gx, gy', Bool.and_false, Bool.false_eq_true, if_false] at hxy
      by_cases hs : x.same y = true
      · have := same_generic_alias hs
        rw [gx, gy'] at this
        cases this
      · simp [hs] at hxy
  · have gx' : _PyGenericAlias_Check x = false := by simpa using gx
    simp only [is_duplicate, gx', Bool.false_and, Bool.false_eq_true, if_false] at hxy ⊢
    have hs : x.same y = true := by
      by_contra hs
      simp [hs] at hxy
    have gy' : _PyGenericAlias_Check y = false := by
      rw [← same_generic_alias hs]
      exact gx'
    simp only [is_duplicate, gy', Bool.false_and, Bool.false_eq_true, if_false] at hyz
    have hs' : y.same z = true := by
      by_contra hs'
      simp [hs'] at hyz
    simp [PyObj.same_trans hs hs']

theorem dedup_scan_nonneg (h : Host) (x : PyObj) (acc : List PyObj)
    (hnn : ∀ e, 0 ≤ is_duplicate h x e) : 0 ≤ dedup_scan h x acc := by
  induction acc with
  | nil => simp [dedup_scan]
  | cons a acc ih =>
    simp only [dedup_scan]
    have := hnn a
    split_ifs <;> omega

theorem dedup_loop_ok (h : Host) (hnn : ∀ u v, 0 ≤ is_duplicate h u v)
    (xs acc : List PyObj) : ∃ out, dedup_loop h xs acc = .ok out := by
  induction xs generalizing acc with
  | nil => exact ⟨acc, rfl⟩
  | cons x xs ih =>
    rw [dedup_loop_cons]
    have := dedup_scan_nonneg h x acc (hnn x)
    split_ifs
    · omega
    · exact ih _
    · exact ih _

/-- Every element seen by the dedup loop is a duplicate of an element of the
result. -/
theorem dedup_loop_represented (h : Host) {xs acc out : List PyObj}
    (hout : dedup_loop h xs acc = .ok out) :
    ∀ e, e ∈ acc ∨ e ∈ xs → ∃ e' ∈ out, 0 < is_duplicate h e e' := by
  induction xs generalizing acc with
  | nil =>
    simp only [dedup_loop, Except.ok.injEq] at hout
    subst hout
    intro e he
    rcases he with he | he
    · exact ⟨e, he, by simp [is_duplicate_self]⟩
    · simp at he
  | cons x xs ih =>
    rw [dedup_loop_cons] at hout
    intro e he
    split_ifs at hout with h1 h2
    · apply ih hout
      rcases he with he | he
      · exact Or.inl (List.mem_append_left _ he)
      · rcases List.mem_cons.1 he with rfl | he
        · exact Or.inl (List.mem_append_right _ (List.mem_singleton_self _))
        · exact Or.inr he
    · rcases he with he | he
      · exact ih hout e (Or.inl he)
      · rcases List.mem_cons.1 he with rfl | he
        · obtain ⟨e0, he0, hE⟩ := dedup_scan_pos h e acc (by omega)
          exact ⟨e0, (dedup_loop_extends h hout).subset he0, hE⟩
        · exact ih hout e (Or.inr he)

/-- Deduplicating a tuple first and then against the accepted elements `acc`
gives what deduplicating it against `acc` directly gives. -/
theorem dedup_loop_redo (h : Host) (hnn : ∀ u v, 0 ≤ is_duplicate h u v)
    (htr : ∀ x y z, 0 < is_duplicate h x y → 0 < is_duplicate h y z →
      0 < is_duplicate h x z) :
    ∀ (ys out : List PyObj), dedup_loop h ys [] = .ok out →
      ∀ acc, dedup_loop h out acc = dedup_loop h ys acc := by
  intro ys
  induction ys using List.reverseRecOn with
  | nil =>
    intro out hout acc
    simp only [dedup_loop, Except.ok.injEq] at hout
    subst hout
    rfl
  | append_singleton ys y ih =>
    intro out hout acc
    obtain ⟨out', hout', hy⟩ := dedup_loop_split h hout
    have ih' := ih out' hout' acc
    rw [dedup_loop_cons] at hy
    split_ifs at hy with h1 h2
    · simp only [dedup_loop, Except.ok.injEq] at hy
      subst hy
      rw [dedup_loop_append, dedup_loop_append, ih']
    · simp only [dedup_loop, Except.ok.injEq] at hy
      subst hy
      rw [dedup_loop_append, ← ih']
      obtain ⟨res, hres⟩ := dedup_loop_ok h hnn out' acc
      rw [hres]
      show Except.ok res = dedup_loop h [y] res
      obtain ⟨e, he, hE⟩ := dedup_scan_pos h y out' (by omega)
      obtain ⟨e', he', hE'⟩ := dedup_loop_represented h hres e (Or.inr he)
      have hdup := htr y e e' hE hE'
      have hnz : dedup_scan h y res ≠ 0 := by
        intro hz
        have := (dedup_scan_eq_zero_iff h y res).1 hz e' he'
        omega
      have hge := dedup_scan_nonneg h y res (hnn y)
      have hnl : ¬ dedup_scan h y res < 0 := by omega
      simp [dedup_loop_cons, hnl, hnz, dedup_loop]

/-- What the combinator hands back on two operands of the data model, seen as
an operand of a further combination. -/
theorem type_and_as_operand (h : Host) (addr : Nat) {A B : PyObj} {L : List PyObj}
    (hA : is_intersectionable A = true) (hB : is_intersectionable B = true)
    (cA : A.operands_classified = true) (cB : B.operands_classified = true)
    (hD : dedup_and_flatten_args h [A, B] = .ok L) :
    ∃ R, _Py_intersection_type_and h addr A B = .ok R ∧ is_intersectionable R = true ∧
      ∀ rest, flatten_args (R :: rest) = L ++ flatten_args rest := by
  have hargs : ∀ x ∈ [A, B],
      is_intersectionable x = true ∧ x.operands_classified = true := by
    intro x hx
    simp only [List.mem_cons, List.mem_singleton, List.not_mem_nil, or_false] at hx
    rcases hx with rfl | rfl
    · exact ⟨hA, cA⟩
    · exact ⟨hB, cB⟩
  have hcl := dedup_and_flatten_args_classified h hargs hD
  have hand : _Py_intersection_type_and h addr A B = make_intersection h addr [A, B] := by
    simp [_Py_intersection_type_and, hA, hB]
  rw [hand]
  by_cases hlen : ∃ e, L = [e]
  · obtain ⟨e, rfl⟩ := hlen
    have he := hcl e (List.mem_singleton_self _)
    refine ⟨e, by simp [make_intersection, hD], ?_, ?_⟩
    · simp only [is_intersectionable, Bool.or_eq_true] at he ⊢
      tauto
    · intro rest
      rw [flatten_args_cons]
      cases e <;> simp_all [PyType_Check, _PyGenericAlias_Check, _PyIntersection_Check,
        PyObj.same, PyObj.ident]
  · refine ⟨.Intersection addr L none, ?_, ?_, ?_⟩
    · unfold make_intersection
      rw [hD]
      split
      · next heq => cases heq
      · next e heq =>
        simp only [Except.ok.injEq] at heq
        exact absurd ⟨e, heq⟩ hlen
      · next heq =>
        simp only [Except.ok.injEq] at heq
        rw [heq]
    · simp [is_intersectionable, _PyIntersection_Check]
    · intro rest
      rw [flatten_args_cons]
      simp [_PyIntersection_Check, PyObj.args]

/-- C20 (associativity).  For operands `A`, `B`, `C` accepted by
`is_intersectionable` (an intersection object among them having classes and
generic aliases as operands), when the comparison of generic aliases never fails
and is transitive, `(A & B) & C` and `A & (B & C)` both return a result, and the
same one: the same absorbed operand, or intersection objects with the same
operand sequence in the same order. -/
theorem and_associative (h : Host) (a1 a2 a3 a4 : Nat) (A B C : PyObj)
    (hA : is_intersectionable A = true) (hB : is_intersectionable B = true)
    (hC : is_intersectionable C = true)
    (cA : A.operands_classified = true) (cB : B.operands_classified = true)
    (cC : C.operands_classified = true)
    (hnofail : ∀ x y, _PyGenericAlias_Check x = true → _PyGenericAlias_Check y = true →
      0 ≤ PyObject_RichCompareBool h x y)
    (htrans : ∀ x y z, _PyGenericAlias_Check x = true → _PyGenericAlias_Check y = true →
      _PyGenericAlias_Check z = true → PyObject_RichCompareBool h x y ≠ 0 →
      PyObject_RichCompareBool h y z ≠ 0 → PyObject_RichCompareBool h x z ≠ 0) :
    ((_Py_intersection_type_and h a1 A B).bind
        fun AB => _Py_intersection_type_and h a2 AB C).map PyObj.result_view =
      ((_Py_intersection_type_and h a3 B C).bind
        fun BC => _Py_intersection_type_and h a4 A BC).map PyObj.result_view ∧
    (∃ v, (_Py_intersection_type_and h a1 A B).bind
        (fun AB => _Py_intersection_type_and h a2 AB C) = .ok v) ∧
    (∃ v, (_Py_intersection_type_and h a3 B C).bind
        (fun BC => _Py_intersection_type_and h a4 A BC) = .ok v) := by
  have hnn := is_duplicate_nonneg h hnofail
  have htr : ∀ x y z, 0 < is_duplicate h x y → 0 < is_duplicate h y z →
      0 < is_duplicate h x z := fun x y z => is_duplicate_trans h hnofail htrans
  have mk_ok : ∀ a args, ∃ v, make_intersection h a args = .ok v := by
    intro a args
    obtain ⟨out, hout⟩ := dedup_loop_ok h hnn (flatten_args args) []
    unfold make_intersection dedup_and_flatten_args
    rw [hout]
    split
    · next heq => cases heq
    · exact ⟨_, rfl⟩
    · exact ⟨_, rfl⟩
  -- the left association
  obtain ⟨L1, hL1⟩ := dedup_loop_ok h hnn (flatten_args [A, B]) []
  obtain ⟨R1, hR1, iR1, fR1⟩ := type_and_as_operand h a1 hA hB cA cB hL1
  have hleft : (_Py_intersection_type_and h a1 A B).bind
      (fun AB => _Py_intersection_type_and h a2 AB C) = make_intersection h a2 [R1, C] := by
    rw [hR1]
    show _Py_intersection_type_and h a2 R1 C = _
    simp [_Py_intersection_type_and, iR1, hC]
  have dleft : dedup_and_flatten_args h [R1, C] = dedup_and_flatten_args h [A, B, C] := by
    unfold dedup_and_flatten_args
    have h3 : flatten_args [A, B, C] = flatten_args [A, B] ++ flatten_args [C] := by
      rw [← flatten_args_append]
      rfl
    rw [fR1, h3, dedup_loop_append, dedup_loop_append, hL1,
      dedup_and_flatten_args_stable h hL1]
  -- the right association
  obtain ⟨L2, hL2⟩ := dedup_loop_ok h hnn (flatten_args [B, C]) []
  obtain ⟨R2, hR2, iR2, fR2⟩ := type_and_as_operand h a3 hB hC cB cC hL2
  have hright : (_Py_intersection_type_and h a3 B C).bind
      (fun BC => _Py_intersection_type_and h a4 A BC) = make_intersection h a4 [A, R2] := by
    rw [hR2]
    show _Py_intersection_type_and h a4 A R2 = _
    simp [_Py_intersection_type_and, hA, iR2]
  have dright : dedup_and_flatten_args h [A, R2] = dedup_and_flatten_args h [A, B, C] := by
    unfold dedup_and_flatten_args
    have h2 : flatten_args [A, R2] = flatten_args [A] ++ L2 := by
      have : flatten_args [A, R2] = flatten_args [A] ++ flatten_args [R2] := by
        rw [← flatten_args_append]
        rfl
      rw [this, fR2]
      simp [flatten_args]
    have h3 : flatten_args [A, B, C] = flatten_args [A] ++ flatten_args [B, C] := by
      rw [← flatten_args_append]
      rfl
    rw [h2, h3, dedup_loop_append, dedup_loop_append]
    congr 1
    funext acc
    exact dedup_loop_redo h hnn htr (flatten_args [B, C]) L2 hL2 acc
  refine ⟨?_, ?_, ?_⟩
  · rw [hleft, hright]
    exact make_intersection_view h a2 a4 (dleft.trans dright.symm)
  · rw [hleft]
    exact mk_ok a2 _
  · rw [hright]
    exact mk_ok a4 _

theorem and_associative_witness :
    is_intersectionable (.GenericAlias 3) = true ∧
    is_intersectionable (.Intersection 9 [.type 2, .GenericAlias 3] none) = true ∧
    is_intersectionable .Py_None = true ∧
    ((_Py_intersection_type_and plain_host 10 (.GenericAlias 3)
        (.Intersection 9 [.type 2, .GenericAlias 3] none)).bind
        fun AB => _Py_intersection_type_and plain_host 11 AB .Py_None).map
          PyObj.result_view = .ok (.inr [.GenericAlias 3, .type 2, .PyNone_Type]) ∧
    ((_Py_intersection_type_and plain_host 10 (.GenericAlias 3)
        (.Intersection 9 [.type 2, .GenericAlias 3] none)).bind
        fun AB => _Py_intersection_type_and plain_host 11 AB .Py_None).map
          PyObj.result_view =
      ((_Py_intersection_type_and plain_host 12
        (.Intersection 9 [.type 2, .GenericAlias 3] none) .Py_None).bind
        fun BC => _Py_intersection_type_and plain_host 13 (.GenericAlias 3) BC).map
          PyObj.result_view :=
  have hnofail : ∀ x y, _PyGenericAlias_Check x = true → _PyGenericAlias_Check y = true →
      0 ≤ PyObject_RichCompareBool plain_host x y := by
    intro x y _ _
    unfold PyObject_RichCompareBool
    split_ifs
    · decide
    · exact le_refl _
  have htrans : ∀ x y z, _PyGenericAlias_Check x = true → _PyGenericAlias_Check y = true →
      _PyGenericAlias_Check z = true → PyObject_RichCompareBool plain_host x y ≠ 0 →
      PyObject_RichCompareBool plain_host y z ≠ 0 →
      PyObject_RichCompareBool plain_host x z ≠ 0 := by
    intro x y z _ _ _ hxy hyz
    have sxy : x.same y = true := by
      by_contra hs
      exact hxy (by simp [PyObject_RichCompareBool, hs, plain_host])
    have syz : y.same z = true := by
      by_contra hs
      exact hyz (by simp [PyObject_RichCompareBool, hs, plain_host])
    simp [PyObject_RichCompareBool, PyObj.same_trans sxy syz]
  ⟨rfl, rfl, rfl, rfl,
    (and_associative plain_host 10 11 12 13 (.GenericAlias 3)
      (.Intersection 9 [.type 2, .GenericAlias 3] none) .Py_None rfl rfl rfl rfl rfl rfl
      hnofail htrans).1⟩

/-! ## The none marker and the spec's class-like operands -/

/-- C8 fails as stated.  `A & None` holds the class `A` and the none marker; a
candidate class that is a subclass of `A`, hence of every operand the spec calls
class-like, is rejected, because it is tested against `_PyNone_Type` too. -/
theorem subclass_and_law_fails_at_none_marker :
    (∀ x ∈ [PyObj.type 1, .PyNone_Type], _PyGenericAlias_Check x = false) ∧
    PyType_Check (.type 3) = true ∧
    (∀ x ∈ [PyObj.type 1, .PyNone_Type], PyType_Check x = true →
      0 ≤ narrow_host.PyObject_IsSubclass (.type 3) x) ∧
    _Py_intersection_type_and narrow_host 9 (.type 1) .Py_None =
      .ok (.Intersection 9 [.type 1, .PyNone_Type] none) ∧
    (∀ x ∈ [PyObj.type 1, .PyNone_Type], spec_is_class_like x = true →
      narrow_host.PyObject_IsSubclass (.type 3) x ≠ 0) ∧
    intersection_subclasscheck narrow_host
      (.Intersection 9 [.type 1, .PyNone_Type] none) (.type 3) = .ok .Py_False ∧
    ¬ (intersection_subclasscheck narrow_host
        (.Intersection 9 [.type 1, .PyNone_Type] none) (.type 3) = .ok .Py_True ↔
      ∀ x ∈ [PyObj.type 1, .PyNone_Type], spec_is_class_like x = true →
        narrow_host.PyObject_IsSubclass (.type 3) x ≠ 0) := by
  have hall : ∀ x ∈ [PyObj.type 1, .PyNone_Type], spec_is_class_like x = true →
      narrow_host.PyObject_IsSubclass (.type 3) x ≠ 0 := by
    intro x hx hc
    simp only [List.mem_cons, List.mem_singleton, List.not_mem_nil, or_false] at hx
    rcases hx with rfl | rfl
    · decide
    · cases hc
  refine ⟨?_, rfl, ?_, rfl, hall, rfl, ?_⟩
  · intro x hx
    simp only [List.mem_cons, List.mem_singleton, List.not_mem_nil, or_false] at hx
    rcases hx with rfl | rfl <;> rfl
  · intro x hx _
    simp only [List.mem_cons, List.mem_singleton, List.not_mem_nil, or_false] at hx
    rcases hx with rfl | rfl <;> decide
  · intro hiff
    have htrue := hiff.2 hall
    have hfalse : intersection_subclasscheck narrow_host
        (.Intersection 9 [.type 1, .PyNone_Type] none) (.type 3) = .ok .Py_False := rfl
    rw [hfalse] at htrue
    cases htrue

/-- C9 fails as stated.  `A & None` holds the class `A` and the none marker;
the candidate `None` is an instance of no operand the spec calls class-like, and
is accepted, because it is tested against `_PyNone_Type` too. -/
theorem instance_or_law_fails_at_none_marker :
    (∀ x ∈ [PyObj.type 1, .PyNone_Type], _PyGenericAlias_Check x = false) ∧
    (∀ x ∈ [PyObj.type 1, .PyNone_Type], PyType_Check x = true →
      0 ≤ none_host.PyObject_IsInstance .Py_None x) ∧
    _Py_intersection_type_and none_host 9 (.type 1) .Py_None =
      .ok (.Intersection 9 [.type 1, .PyNone_Type] none) ∧
    (∀ x ∈ [PyObj.type 1, .PyNone_Type], spec_is_class_like x = true →
      none_host.PyObject_IsInstance .Py_None x = 0) ∧
    intersection_instancecheck none_host
      (.Intersection 9 [.type 1, .PyNone_Type] none) .Py_None = .ok .Py_True ∧
    ¬ (intersection_instancecheck none_host
        (.Intersection 9 [.type 1, .PyNone_Type] none) .Py_None = .ok .Py_True ↔
      ∃ x ∈ [PyObj.type 1, .PyNone_Type], spec_is_class_like x = true ∧
        none_host.PyObject_IsInstance .Py_None x ≠ 0) := by
  have hnone : ∀ x ∈ [PyObj.type 1, .PyNone_Type], spec_is_class_like x = true →
      none_host.PyObject_IsInstance .Py_None x = 0 := by
    intro x hx hc
    simp only [List.mem_cons, List.mem_singleton, List.not_mem_nil, or_false] at hx
    rcases hx with rfl | rfl
    · rfl
    · cases hc
  refine ⟨?_, ?_, rfl, hnone, rfl, ?_⟩
  · intro x hx
    simp only [List.mem_cons, List.mem_singleton, List.not_mem_nil, or_false] at hx
    rcases hx with rfl | rfl <;> rfl
  · intro x hx _
    simp only [List.mem_cons, List.mem_singleton, List.not_mem_nil, or_false] at hx
    rcases hx with rfl | rfl <;> decide
  · intro hiff
    obtain ⟨x, hx, hc, hne⟩ := hiff.1 rfl
    exact hne (hnone x hx hc)

end Intersection
